import Mathlib

/-!
# FreelanceOS security core — formal model and verification

Shallow embedding of the hand-rolled security middleware of the FreelanceOS
backend (rate limiting with IP blocking, XSS sanitization, PII field
encryption, path-traversal protection, CORS origin validation, secret
rotation, global error handlers), together with proofs and refutations of
the specification's testable properties.

Conventions:
* Machine integers are `Nat` (timestamps in milliseconds, byte values with
  explicit bounds `< 256`).
* Strings handled character-wise are `List Char`; raw byte strings (the PII
  cipher pipeline) are `List Nat` of byte values.
* Redis state for one (client, endpoint) key is a record of the sorted-set
  contents and the pending key expiries; each middleware pass is a pure
  state-transition function.
* Randomness (IVs, generated secrets) and external primitives (the AES
  keystream) are explicit parameters, so every definition is executable.
-/

/-- `pat` occurs as a contiguous sublist of `s` (the JavaScript
`String.includes` / literal-substring regex test used throughout the
middleware sources). -/
def containsL (pat : List Char) : List Char → Bool
  | [] => pat.isEmpty
  | c :: rest => pat.isPrefixOf (c :: rest) || containsL pat rest

namespace RateLimit

/-- `RateLimitConfig` — one entry of the `RATE_LIMITS` table of
`advanced-rate-limit.ts` (window in ms, max requests, skip flags, optional
block duration in seconds). -/
structure RateLimitConfig where
  windowMs : Nat
  maxRequests : Nat
  skipSuccessfulRequests : Bool
  skipFailedRequests : Bool
  blockDuration : Option Nat
deriving Repr, DecidableEq

/-- `RATE_LIMITS.auth`: 15 min window, 5 requests, 30 min block. -/
def authLimits : RateLimitConfig :=
  { windowMs := 15 * 60 * 1000, maxRequests := 5,
    skipSuccessfulRequests := true, skipFailedRequests := false,
    blockDuration := some (30 * 60) }

/-- `RATE_LIMITS.create`: 1 min window, 10 requests, 5 min block. -/
def createLimits : RateLimitConfig :=
  { windowMs := 60 * 1000, maxRequests := 10,
    skipSuccessfulRequests := false, skipFailedRequests := true,
    blockDuration := some (5 * 60) }

/-- `RATE_LIMITS.read`: 1 min window, env-dependent max, 2 min block. -/
def readLimits (nodeEnv : String) : RateLimitConfig :=
  { windowMs := 60 * 1000,
    maxRequests := if nodeEnv = "development" then 15 else 60,
    skipSuccessfulRequests := false, skipFailedRequests := true,
    blockDuration := some (2 * 60) }

/-- `RATE_LIMITS.update`: 1 min window, 30 requests, 3 min block. -/
def updateLimits : RateLimitConfig :=
  { windowMs := 60 * 1000, maxRequests := 30,
    skipSuccessfulRequests := false, skipFailedRequests := true,
    blockDuration := some (3 * 60) }

/-- `RATE_LIMITS.delete`: 1 min window, 5 requests, 10 min block. -/
def deleteLimits : RateLimitConfig :=
  { windowMs := 60 * 1000, maxRequests := 5,
    skipSuccessfulRequests := false, skipFailedRequests := true,
    blockDuration := some (10 * 60) }

/-- `RATE_LIMITS.general`: 1 min window, env-dependent max, 5 min block. -/
def generalLimits (nodeEnv : String) : RateLimitConfig :=
  { windowMs := 60 * 1000,
    maxRequests := if nodeEnv = "production" then 100 else 20,
    skipSuccessfulRequests := false, skipFailedRequests := true,
    blockDuration := some (5 * 60) }

/-- The endpoint categories of the `RATE_LIMITS` table. -/
inductive LimitType where
  | auth | create | read | update | delete | general
deriving Repr, DecidableEq

/-- `getRateLimitType` of `advanced-rate-limit.ts`: `/auth/` URLs are
`auth`; otherwise the category is chosen by the upper-cased HTTP method. -/
def getRateLimitType (method url : String) : LimitType :=
  if containsL "/auth/".data url.data then .auth
  else
    match String.mk (method.data.map Char.toUpper) with
    | "POST" => .create
    | "GET" => .read
    | "PUT" => .update
    | "PATCH" => .update
    | "DELETE" => .delete
    | _ => .general

/-- Redis-backed state for one rate-limit key of one client: the sorted-set
of request timestamps (`ratelimit:<ip>:<url>`), that key's pending expiry
(from `EXPIRE`), and the expiry of the client's `blocked:<ip>` key (from
`SETEX`); `none` means the key does not exist. All times in ms. -/
structure RLState where
  window : List Nat
  winExpiry : Option Nat
  block : Option Nat
deriving Repr, DecidableEq

/-- The state before any request: no Redis keys exist. -/
def emptyState : RLState := { window := [], winExpiry := none, block := none }

/-- The live contents of the window key at time `now`: empty if the key's
TTL has elapsed (Redis expiry), otherwise the stored timestamps. -/
def liveWindow (s : RLState) (now : Nat) : List Nat :=
  match s.winExpiry with
  | some e => if e ≤ now then [] else s.window
  | none => s.window

/-- `isIPBlocked`: the `blocked:<ip>` key exists (its `SETEX` TTL has not
elapsed). -/
def isIPBlocked (s : RLState) (now : Nat) : Bool :=
  match s.block with
  | some e => decide (now < e)
  | none => false

/-- The middleware's per-request outcome: early 429 for a blocked IP
(`IP_TEMPORARILY_BLOCKED`, fixed `retryAfter` 300), 429 on window overflow
(`RATE_LIMIT_EXCEEDED`), or pass-through with the `X-RateLimit-Remaining`
header value. -/
inductive Decision where
  | blockedDeny (retryAfter : Nat)
  | rateDeny (retryAfter : Nat)
  | allow (remaining : Int)
deriving Repr, DecidableEq

/-- JavaScript `Math.ceil(a / b)` for natural `a`, positive `b`. -/
def jsCeilDiv (a b : Nat) : Nat := (a + b - 1) / b

/-- `blockIP`: `SETEX blocked:<ip> durationSeconds <json>` — the block key
now expires `durationSeconds * 1000` ms from `now`. -/
def blockIP (s : RLState) (now durationSeconds : Nat) : RLState :=
  { s with block := some (now + durationSeconds * 1000) }

/-- One pass of `advancedRateLimitMiddleware` for a single client and key,
at wall-clock `now` (ms): (a) blocked IPs are rejected outright;
(b) `ZREMRANGEBYSCORE -inf (now - windowMs)` purges stale timestamps
(kept iff `now < t + windowMs`, i.e. score strictly above `now - windowMs`);
(c) if the remaining count reaches `maxRequests` the request is rejected
with `retryAfter = ceil(windowMs/1000)` and the IP is blocked for
`blockDuration` if configured; (d) otherwise `now` is appended (`ZADD`) and
the key's TTL refreshed to `ceil(windowMs/1000)` s (`EXPIRE`). -/
def check (cfg : RateLimitConfig) (now : Nat) (s : RLState) : Decision × RLState :=
  if isIPBlocked s now then
    (.blockedDeny 300, s)
  else
    let purged := (liveWindow s now).filter (fun t => decide (now < t + cfg.windowMs))
    let currentCount := purged.length
    if cfg.maxRequests ≤ currentCount then
      let s1 : RLState := ⟨purged, s.winExpiry, s.block⟩
      let s2 : RLState :=
        match cfg.blockDuration with
        | some d => blockIP s1 now d
        | none => s1
      (.rateDeny (jsCeilDiv cfg.windowMs 1000), s2)
    else
      (.allow ((cfg.maxRequests : Int) - currentCount - 1),
       { window := purged ++ [now],
         winExpiry := some (now + jsCeilDiv cfg.windowMs 1000 * 1000),
         block := s.block })

/-- Run the middleware over a sequence of request times. -/
def run (cfg : RateLimitConfig) : RLState → List Nat → List Decision × RLState
  | s, [] => ([], s)
  | s, t :: ts =>
    let p := check cfg t s
    let q := run cfg p.2 ts
    (p.1 :: q.1, q.2)

end RateLimit

namespace XSS

/-- Lower-casing used to model the `i` flag carried by every entry of
`XSS_PATTERNS` in `xss-protection.ts`. -/
def lower (s : List Char) : List Char := s.map Char.toLower

/-- The regex character class `\w` (`[A-Za-z0-9_]`). -/
def isWordChar (c : Char) : Bool := c.isAlphanum || c = '_'

/-- The regex character class `\s`, at the ASCII whitespace characters the
inputs of interest contain. -/
def isSpaceChar (c : Char) : Bool :=
  c = ' ' || c = '\t' || c = '\n' || c = '\r' || c = '\x0b' || c = '\x0c'

/-- After the literal `<script` of
`/<script\b[^<]*(?:(?!<\/script>)<[^<]*)*<\/script>/gi`: the `\b` requires
the next character to be a non-word character, and the middle admits any
text up to a closing `</script>` (every `<` inside the middle does not open
`</script>`, which holds of the text before the first closing tag). -/
def afterScriptOk : List Char → Bool
  | [] => false
  | c :: rest => !isWordChar c && containsL "</script>".data (c :: rest)

/-- `XSS_PATTERNS[0]` matches at the head of `s` (on lower-cased input). -/
def scriptTagAt (s : List Char) : Bool :=
  "<script".data.isPrefixOf s && afterScriptOk (s.drop 7)

/-- `XSS_PATTERNS[0]` (`<script` … `</script>`) matches somewhere in `s`. -/
def containsScriptTag : List Char → Bool
  | [] => false
  | c :: rest => scriptTagAt (c :: rest) || containsScriptTag rest

/-- `/on\w+\s*=/gi` matches at the head of `s`: literal `on`, then at least
one word character, then optional whitespace, then `=`. -/
def eventHandlerAt (s : List Char) : Bool :=
  "on".data.isPrefixOf s &&
    (let u := s.drop 2
     let w := u.takeWhile isWordChar
     !w.isEmpty &&
       (match (u.drop w.length).dropWhile isSpaceChar with
        | '=' :: _ => true
        | _ => false))

/-- `/on\w+\s*=/gi` matches somewhere in `s`. -/
def containsEventHandler : List Char → Bool
  | [] => false
  | c :: rest => eventHandlerAt (c :: rest) || containsEventHandler rest

/-- `/<word>\s*\(/` matches at the head of `s` (used for
`/expression\s*\(/gi` and `/url\s*\(/gi`). -/
def wordThenParenAt (word : List Char) (s : List Char) : Bool :=
  word.isPrefixOf s &&
    (match (s.drop word.length).dropWhile isSpaceChar with
     | '(' :: _ => true
     | _ => false)

/-- `/<word>\s*\(/` matches somewhere in `s`. -/
def containsWordThenParen (word : List Char) : List Char → Bool
  | [] => false
  | c :: rest => wordThenParenAt word (c :: rest) || containsWordThenParen word rest

/-- `/\<\s*meta\s+http-equiv/gi` matches at the head of `s`. -/
def metaRefreshAt : List Char → Bool
  | '<' :: rest =>
    (let u := rest.dropWhile isSpaceChar
     "meta".data.isPrefixOf u &&
       (match u.drop 4 with
        | c :: tail =>
          isSpaceChar c && "http-equiv".data.isPrefixOf ((c :: tail).dropWhile isSpaceChar)
        | [] => false))
  | _ => false

/-- `/\<\s*meta\s+http-equiv/gi` matches somewhere in `s`. -/
def containsMetaRefresh : List Char → Bool
  | [] => false
  | c :: rest => metaRefreshAt (c :: rest) || containsMetaRefresh rest

/-- The `XSS_PATTERNS` list of `xss-protection.ts`, tested on the
lower-cased input (every pattern carries the `i` flag): scripts,
`javascript:`/`vbscript:` URLs, inline event handlers, CSS
`expression(`/`url(`, encoded script/iframe openings, `data:text/html`
URLs, and meta-refresh openings. -/
def matchesXSSPatternsLower (l : List Char) : Bool :=
  containsScriptTag l ||
  containsL "javascript:".data l ||
  containsL "vbscript:".data l ||
  containsEventHandler l ||
  containsWordThenParen "expression".data l ||
  containsWordThenParen "url".data l ||
  containsL "&lt;script".data l ||
  containsL "&lt;iframe".data l ||
  containsL "data:text/html".data l ||
  containsMetaRefresh l

/-- Some entry of `XSS_PATTERNS` matches `s`. -/
def matchesXSSPatterns (s : List Char) : Bool := matchesXSSPatternsLower (lower s)

/-- Tag-scanning state machine: `inTag = true` while between `<` and the
next `>`. -/
def stripTagsAux : Bool → List Char → List Char
  | _, [] => []
  | false, c :: rest =>
    if c = '<' then stripTagsAux true rest else c :: stripTagsAux false rest
  | true, c :: rest =>
    if c = '>' then stripTagsAux false rest else stripTagsAux true rest

/-- Modelled from the spec: the external `DOMPurify.sanitize` call under
`PURIFY_CONFIG` (`ALLOWED_TAGS: []`, `ALLOWED_ATTR: []`,
`KEEP_CONTENT: true`) — every tag is removed together with its attributes
and the text content is kept; an unterminated `<` swallows the rest. -/
def stripTags (s : List Char) : List Char := stripTagsAux false s

/-- JavaScript `String.replace(/pat/g, rep)` for a literal pattern:
leftmost, non-overlapping, the replacement text is not rescanned. The fuel
(instantiated with the input length) only serves structural recursion; one
character is consumed per step. -/
def replaceAllFuel (pat rep : List Char) : Nat → List Char → List Char
  | 0, s => s
  | _ + 1, [] => []
  | fuel + 1, c :: rest =>
    if pat.isPrefixOf (c :: rest) ∧ pat ≠ [] then
      rep ++ replaceAllFuel pat rep fuel (rest.drop (pat.length - 1))
    else
      c :: replaceAllFuel pat rep fuel rest

/-- JavaScript `s.replace(/pat/g, rep)` for a literal pattern. -/
def replaceAll (pat rep s : List Char) : List Char :=
  replaceAllFuel pat rep s.length s

/-- Step 3 of `sanitizeXSS`: the six chained entity replacements
(`&amp;` → `&`, `&lt;` → `<`, `&gt;` → `>`, `&quot;` → `"`,
`&#x27;` → the apostrophe, `&#x2F;` → `/`), applied in source order. -/
def decodeEntities (s : List Char) : List Char :=
  replaceAll "&#x2F;".data "/".data
    (replaceAll "&#x27;".data [Char.ofNat 39]
      (replaceAll "&quot;".data "\"".data
        (replaceAll "&gt;".data ">".data
          (replaceAll "&lt;".data "<".data
            (replaceAll "&amp;".data "&".data s)))))

/-- `sanitizeXSS` of `xss-protection.ts`: falsy input is returned as is;
then (1) any `XSS_PATTERNS` match throws, (2) DOMPurify strips all markup,
(3) HTML entities are decoded once, (4) the patterns are re-checked on the
decoded result, (5) results longer than 10000 characters throw. `none`
models the thrown `Error` (every throw is caught and rethrown as the
generic rejection). -/
def sanitizeXSS (s : List Char) : Option (List Char) :=
  if s.isEmpty then some s
  else if matchesXSSPatterns s then none
  else
    let t := decodeEntities (stripTags s)
    if matchesXSSPatterns t then none
    else if 10000 < t.length then none
    else some t

end XSS

namespace PII

/-- ASCII code of the lower-case hex digit for `n < 16` (Node's `'hex'`
encoding). -/
def hexDigit (n : Nat) : Nat :=
  if n < 10 then 48 + n else 87 + n

/-- `Buffer.toString('hex')`: two hex digits per byte. -/
def hexEnc : List Nat → List Nat
  | [] => []
  | b :: rest => hexDigit (b / 16) :: hexDigit (b % 16) :: hexEnc rest

/-- Value of one hex-digit character (upper or lower case), `none` for a
non-hex character. -/
def hexDigitVal (c : Nat) : Option Nat :=
  if 48 ≤ c ∧ c ≤ 57 then some (c - 48)
  else if 97 ≤ c ∧ c ≤ 102 then some (c - 87)
  else if 65 ≤ c ∧ c ≤ 70 then some (c - 55)
  else none

/-- `Buffer.from(s, 'hex')`: decodes pairs of hex digits and stops at the
first invalid pair or odd tail (Node is lenient and truncates rather than
throwing). -/
def hexDec : List Nat → List Nat
  | c1 :: c2 :: rest =>
    (match hexDigitVal c1, hexDigitVal c2 with
     | some h, some l => (h * 16 + l) :: hexDec rest
     | _, _ => [])
  | _ => []

/-- AES-256-CTR keystream cipher at byte level, keystream bytes `ks i % 256`
XORed position-wise: `ctrXorFrom ks i` processes a message whose first byte
sits at keystream offset `i`. The keystream function abstracts
AES-CTR(key, iv); encryption and decryption are the same operation. -/
def ctrXorFrom (ks : Nat → Nat) : Nat → List Nat → List Nat
  | _, [] => []
  | i, b :: rest => (b ^^^ (ks i % 256)) :: ctrXorFrom ks (i + 1) rest

/-- `cipher.update(_, 'utf8'/'hex') + cipher.final()` for AES-256-CTR: XOR
with the keystream from offset 0. -/
def ctrXor (ks : Nat → Nat) (msg : List Nat) : List Nat := ctrXorFrom ks 0 msg

/-- The UTF-8 bytes of an ASCII string literal (used for the fixed JSON
punctuation, which is pure ASCII). -/
def strBytes (s : String) : List Nat := s.data.map Char.toNat

/-- ASCII code of the standard base64 alphabet character for `v < 64`. -/
def b64Char (v : Nat) : Nat :=
  if v < 26 then 65 + v
  else if v < 52 then 97 + (v - 26)
  else if v < 62 then 48 + (v - 52)
  else if v = 62 then 43
  else 47

/-- Index of a base64 alphabet character, `none` for anything else
(padding `=` included). -/
def b64Index (c : Nat) : Option Nat :=
  if 65 ≤ c ∧ c ≤ 90 then some (c - 65)
  else if 97 ≤ c ∧ c ≤ 122 then some (c - 97 + 26)
  else if 48 ≤ c ∧ c ≤ 57 then some (c - 48 + 52)
  else if c = 43 then some 62
  else if c = 47 then some 63
  else none

/-- `Buffer.toString('base64')`: 3 bytes → 4 characters, `=`-padded
(61 is the ASCII code of `=`). -/
def b64Encode : List Nat → List Nat
  | [] => []
  | [b1] => [b64Char (b1 / 4), b64Char (b1 % 4 * 16), 61, 61]
  | [b1, b2] => [b64Char (b1 / 4), b64Char (b1 % 4 * 16 + b2 / 16), b64Char (b2 % 16 * 4), 61]
  | b1 :: b2 :: b3 :: rest =>
    b64Char (b1 / 4) :: b64Char (b1 % 4 * 16 + b2 / 16) ::
      b64Char (b2 % 16 * 4 + b3 / 64) :: b64Char (b3 % 64) :: b64Encode rest

/-- Reassemble bytes from 6-bit values: complete groups of 4 give 3 bytes,
a 2- or 3-value tail gives 1 or 2 bytes (Node truncates incomplete
groups). -/
def b64DecodeVals : List Nat → List Nat
  | v1 :: v2 :: v3 :: v4 :: rest =>
    (v1 * 4 + v2 / 16) :: (v2 % 16 * 16 + v3 / 4) :: (v3 % 4 * 64 + v4) :: b64DecodeVals rest
  | [v1, v2] => [v1 * 4 + v2 / 16]
  | [v1, v2, v3] => [v1 * 4 + v2 / 16, v2 % 16 * 16 + v3 / 4]
  | _ => []

/-- `Buffer.from(s, 'base64')`: characters outside the alphabet (padding
and junk) are ignored, then 6-bit values are reassembled; never throws. -/
def b64Decode (s : List Nat) : List Nat :=
  b64DecodeVals (s.filterMap b64Index)

/-- `JSON.stringify({encrypted, iv})` of `encryptPII`, at byte level: the
two fields hold hex strings. -/
def jsonWrap (e iv : List Nat) : List Nat :=
  strBytes "\x7b\"encrypted\":\"" ++ e ++ strBytes "\",\"iv\":\"" ++ iv ++ strBytes "\"\x7d"

/-- A parsed JSON value, as `JSON.parse` returns it (number values carry
no logic in `decryptPII`/`isEncrypted` and are not stored). -/
inductive JVal where
  | jnull
  | jbool (b : Bool)
  | jnum
  | jstr (s : List Nat)
  | jarr (elems : List JVal)
  | jobj (fields : List (List Nat × JVal))

/-- JSON whitespace: space, tab, line feed, carriage return. -/
def isJsonWs (c : Nat) : Bool := c = 32 || c = 9 || c = 10 || c = 13

/-- Drop leading JSON whitespace. -/
def skipWs : List Nat → List Nat
  | [] => []
  | c :: rest => if isJsonWs c then skipWs rest else c :: rest

/-- UTF-8 bytes of the code point a `\uXXXX` escape denotes (at most
0xFFFF; surrogate halves are encoded directly — such characters cannot be
hex digits, so no claim's evaluation depends on their exact bytes). -/
def utf8EncodeCP (n : Nat) : List Nat :=
  if n < 128 then [n]
  else if n < 2048 then [192 + n / 64, 128 + n % 64]
  else [224 + n / 4096, 128 + n / 64 % 64, 128 + n % 64]

/-- The single-character JSON string escapes `\" \\ \/ \b \f \n \r \t`. -/
def jsonEscapeChar (e : Nat) : Option Nat :=
  if e = 34 then some 34
  else if e = 92 then some 92
  else if e = 47 then some 47
  else if e = 98 then some 8
  else if e = 102 then some 12
  else if e = 110 then some 10
  else if e = 114 then some 13
  else if e = 116 then some 9
  else none

/-- The scanner state inside a JSON string: ordinary characters, just
after a backslash, or inside a `\uXXXX` escape with `k` hex digits still
expected and `acc` the value of the digits already read. -/
inductive JStrState where
  | norm
  | esc
  | hex (k acc : Nat)

/-- Scan a JSON string body one character at a time (so the recursion is
on the immediate tail and evaluates definitionally): returns the decoded
content and the remainder after the closing `"`; raw control characters
and malformed escapes are errors, `\uXXXX` escapes are decoded to
UTF-8. -/
def parseStringRun : JStrState → List Nat → Option (List Nat × List Nat)
  | .norm, [] => none
  | .norm, c :: rest =>
    if c = 34 then some ([], rest)
    else if c = 92 then parseStringRun .esc rest
    else if c < 32 then none
    else
      (match parseStringRun .norm rest with
       | some p => some (c :: p.1, p.2)
       | none => none)
  | .esc, [] => none
  | .esc, e :: rest =>
    if e = 117 then parseStringRun (.hex 4 0) rest
    else
      (match jsonEscapeChar e with
       | some b =>
         (match parseStringRun .norm rest with
          | some p => some (b :: p.1, p.2)
          | none => none)
       | none => none)
  | .hex _ _, [] => none
  | .hex k acc, h :: rest =>
    (match hexDigitVal h with
     | some v =>
       if k ≤ 1 then
         (match parseStringRun .norm rest with
          | some p => some (utf8EncodeCP (acc * 16 + v) ++ p.1, p.2)
          | none => none)
       else parseStringRun (.hex (k - 1) (acc * 16 + v)) rest
     | none => none)

/-- Parse a JSON string body after the opening `"`. -/
def parseStringBody (s : List Nat) : Option (List Nat × List Nat) :=
  parseStringRun .norm s

/-- An ASCII decimal digit. -/
def isDigitB (c : Nat) : Bool := 48 ≤ c && c ≤ 57

/-- The integer part of a JSON number: `0`, or a nonzero digit followed by
digits (a leading zero must stand alone, so `01` is not one number). -/
def parseIntPart : List Nat → Option (List Nat)
  | [] => none
  | c :: rest =>
    if c = 48 then some rest
    else if 49 ≤ c ∧ c ≤ 57 then some (rest.dropWhile isDigitB)
    else none

/-- The optional fraction part `.[0-9]+`. -/
def parseFracPart (s : List Nat) : Option (List Nat) :=
  match s with
  | 46 :: rest =>
    (match rest with
     | d :: _ => if isDigitB d then some (rest.dropWhile isDigitB) else none
     | [] => none)
  | _ => some s

/-- The optional exponent part `[eE][+-]?[0-9]+`. -/
def parseExpPart (s : List Nat) : Option (List Nat) :=
  match s with
  | c :: rest =>
    if c = 101 ∨ c = 69 then
      let rest2 := match rest with
        | d :: r => if d = 43 ∨ d = 45 then r else rest
        | [] => rest
      match rest2 with
      | d :: _ => if isDigitB d then some (rest2.dropWhile isDigitB) else none
      | [] => none
    else some s
  | [] => some s

/-- A complete JSON number `-?(0|[1-9][0-9]*)(\.[0-9]+)?([eE][+-]?[0-9]+)?`;
returns the remainder. -/
def parseNumber (s : List Nat) : Option (List Nat) :=
  let body := match s with | 45 :: r => r | _ => s
  match parseIntPart body with
  | none => none
  | some r1 =>
    match parseFracPart r1 with
    | none => none
    | some r2 => parseExpPart r2

/-- A pending context of the JSON parse: an array with the elements parsed
so far (reversed), or an object with the members parsed so far (reversed)
and the key whose value is being parsed. -/
inductive JFrame where
  | arr (done : List JVal)
  | obj (done : List (List Nat × JVal)) (key : List Nat)

/-- The JSON grammar as an explicit-stack machine (structurally recursive
on fuel, so that it evaluates in the kernel): with `none` pending, a value
is expected; with `some v` pending, the completed value `v` is delivered
to the innermost frame. Every recursive call consumes at least one input
character, so `length + 1` fuel never runs out. -/
def jrun : Nat → List JFrame → Option JVal → List Nat → Option JVal
  | 0, _, _, _ => none
  | fuel + 1, stack, none, s =>
    (match skipWs s with
     | [] => none
     | c :: rest =>
       if c = 34 then
         match parseStringBody rest with
         | some p => jrun fuel stack (some (.jstr p.1)) p.2
         | none => none
       else if c = 123 then
         match skipWs rest with
         | [] => none
         | c2 :: rest2 =>
           if c2 = 125 then jrun fuel stack (some (.jobj [])) rest2
           else if c2 = 34 then
             match parseStringBody rest2 with
             | some p =>
               (match skipWs p.2 with
                | c3 :: r3 => if c3 = 58 then jrun fuel (.obj [] p.1 :: stack) none r3 else none
                | [] => none)
             | none => none
           else none
       else if c = 91 then
         match skipWs rest with
         | c2 :: rest2 => if c2 = 93 then jrun fuel stack (some (.jarr [])) rest2
                          else jrun fuel (.arr [] :: stack) none rest
         | [] => none
       else if c = 110 then
         if [117, 108, 108].isPrefixOf rest then jrun fuel stack (some .jnull) (rest.drop 3)
         else none
       else if c = 116 then
         if [114, 117, 101].isPrefixOf rest then jrun fuel stack (some (.jbool true)) (rest.drop 3)
         else none
       else if c = 102 then
         if [97, 108, 115, 101].isPrefixOf rest then jrun fuel stack (some (.jbool false)) (rest.drop 4)
         else none
       else if c = 45 ∨ isDigitB c then
         match parseNumber (c :: rest) with
         | some r => jrun fuel stack (some .jnum) r
         | none => none
       else none)
  | fuel + 1, stack, some v, s =>
    (match stack with
     | [] => if skipWs s = [] then some v else none
     | .arr done :: st =>
       (match skipWs s with
        | c :: rest =>
          if c = 44 then jrun fuel (.arr (v :: done) :: st) none rest
          else if c = 93 then jrun fuel st (some (.jarr (v :: done).reverse)) rest
          else none
        | [] => none)
     | .obj done key :: st =>
       (match skipWs s with
        | c :: rest =>
          if c = 44 then
            match skipWs rest with
            | c2 :: r1 =>
              if c2 = 34 then
                match parseStringBody r1 with
                | some p =>
                  (match skipWs p.2 with
                   | c3 :: r3 =>
                     if c3 = 58 then jrun fuel (.obj ((key, v) :: done) p.1 :: st) none r3
                     else none
                   | [] => none)
                | none => none
              else none
            | [] => none
          else if c = 125 then jrun fuel st (some (.jobj ((key, v) :: done).reverse)) rest
          else none
        | [] => none))

/-- `JSON.parse` over the decoded bytes: parse one value with only
trailing whitespace allowed; `none` models the thrown `SyntaxError`. -/
def jsonParseText (s : List Nat) : Option JVal := jrun (s.length + 1) [] none s

/-- JavaScript property access on a parsed object: the last binding of a
duplicated key wins, as in `JSON.parse`. -/
def jGetField (fields : List (List Nat × JVal)) (key : List Nat) : Option JVal :=
  fields.foldl (fun acc f => if f.1 = key then some f.2 else acc) none

/-- `encryptPII` of `path-traversal-protection.ts` (AES-256-CTR with a
random 16-byte IV): falsy (empty) input is returned as is; otherwise the
plaintext bytes are XORed with the keystream, hex-encoded, bundled with
the hex IV into a JSON object and base64-encoded into one opaque token.
The keystream `ks` abstracts AES-CTR(key, iv); the caller draws `iv` at
random and derives `ks` from the fixed scrypt key and `iv`. -/
def encryptPII (ks : Nat → Nat) (iv : List Nat) (plaintext : List Nat) : List Nat :=
  if plaintext = [] then plaintext
  else b64Encode (jsonWrap (hexEnc (ctrXor ks plaintext)) (hexEnc iv))

/-- `decryptPII`: falsy input returned as is; base64-decode, `JSON.parse`,
then `Buffer.from(parsed.iv, 'hex')` (a `SyntaxError`, a property access
on `null`, or a missing/non-string `iv` throws here), `createDecipheriv`
(throws unless the IV is 16 bytes), and `decipher.update(parsed.encrypted,
'hex')` (throws on a missing or non-string `encrypted`). Every throw is
caught and the original input returned unchanged; otherwise the hex
ciphertext is XOR-decrypted. The model returns the decrypted bytes (the
source additionally passes them through `toString('utf8')`, lossy only on
invalid UTF-8), and it sends a non-string `iv` value to the error path —
Node's `Buffer.from` would also accept arrays and array-like objects
there, and no claim is evaluated on such inputs. -/
def decryptPII (ks : Nat → Nat) (token : List Nat) : List Nat :=
  if token = [] then token
  else
    match jsonParseText (b64Decode token) with
    | none => token
    | some (.jobj fields) =>
      (match jGetField fields (strBytes "iv") with
       | some (.jstr ivhex) =>
         if (hexDec ivhex).length = 16 then
           match jGetField fields (strBytes "encrypted") with
           | some (.jstr e) => ctrXor ks (hexDec e)
           | _ => token
         else token
       | _ => token)
    | some _ => token

/-- `isEncrypted`: falsy input is not encrypted; otherwise the input is
base64-decoded and `JSON.parse`d, and `typeof parsed === 'object' &&
'encrypted' in parsed && 'iv' in parsed` decides — a parse error or the
`in` operator throwing on `null` yields false through the catch; arrays
and non-object values fail the checks. -/
def isEncrypted (data : List Nat) : Bool :=
  if data = [] then false
  else
    match jsonParseText (b64Decode data) with
    | some (.jobj fields) =>
      (jGetField fields (strBytes "encrypted")).isSome &&
        (jGetField fields (strBytes "iv")).isSome
    | _ => false

end PII

namespace Creds

/-- The secret kinds of `SecureCredentialsManager` (`type SecretType`). -/
inductive SecretType where
  | jwt | api_key | database | encryption | oauth
deriving Repr, DecidableEq

/-- `SecretMetadata` of the credentials manager; dates are clock values
supplied by the caller. -/
structure SecretMetadata where
  stype : SecretType
  createdAt : Nat
  lastRotatedAt : Nat
  rotationCount : Nat
  isActive : Bool
  version : Nat
deriving Repr, DecidableEq

/-- `EncryptedSecret`: AES-256-GCM ciphertext, IV and auth tag plus
metadata. The cipher itself is a parameter of the operations (`enc`/`dec`
below abstract `encryptSecret`/`decryptSecret` under the fixed
`MASTER_KEY`). -/
structure EncryptedSecret where
  encryptedValue : String
  iv : String
  tag : String
  metadata : SecretMetadata
deriving Repr, DecidableEq

/-- The manager's `secrets: Map<string, EncryptedSecret>`, as an
association list. -/
def MgrState := List (String × EncryptedSecret)

/-- `Map.get`. -/
def lookupSecret : MgrState → String → Option EncryptedSecret
  | [], _ => none
  | (k, v) :: rest, name => if k = name then some v else lookupSecret rest name

/-- `Map.set`: replace an existing binding, or append a new one. -/
def insertSecret : MgrState → String → EncryptedSecret → MgrState
  | [], name, es => [(name, es)]
  | (k, v) :: rest, name, es =>
    if k = name then (k, es) :: rest else (k, v) :: insertSecret rest name es

/-- `storeSecret(name, value, type)`: encrypt, fresh metadata (version 1,
rotation count 0, active), insert. -/
def storeSecret (enc : String → String × String × String)
    (s : MgrState) (name value : String) (stype : SecretType) (now : Nat) : MgrState :=
  let e := enc value
  insertSecret s name
    ⟨e.1, e.2.1, e.2.2,
     { stype := stype, createdAt := now, lastRotatedAt := now,
       rotationCount := 0, isActive := true, version := 1 }⟩

/-- `getSecret(name)`: `null` for an absent or inactive secret; otherwise
decrypt (a decryption failure is caught and yields `null`). -/
def getSecret (dec : String → String → String → Option String)
    (s : MgrState) (name : String) : Option String :=
  match lookupSecret s name with
  | none => none
  | some es =>
    if es.metadata.isActive then dec es.encryptedValue es.iv es.tag
    else none

/-- `rotateSecret(name)`: `false` for an absent secret; otherwise encrypt
the freshly generated value (`newValue` models the output of
`generateStrongSecret`), bump version and rotation count, update the
rotation date, and keep the remaining metadata (the active flag
included). -/
def rotateSecret (enc : String → String × String × String) (newValue : String)
    (s : MgrState) (name : String) (now : Nat) : Bool × MgrState :=
  match lookupSecret s name with
  | none => (false, s)
  | some es =>
    let e := enc newValue
    (true, insertSecret s name
      ⟨e.1, e.2.1, e.2.2,
       { es.metadata with
         lastRotatedAt := now,
         rotationCount := es.metadata.rotationCount + 1,
         version := es.metadata.version + 1 }⟩)

/-- `revokeSecret(name)`: `false` for an absent secret; otherwise mark it
inactive (never deleted). -/
def revokeSecret (s : MgrState) (name : String) : Bool × MgrState :=
  match lookupSecret s name with
  | none => (false, s)
  | some es =>
    (true, insertSecret s name { es with metadata := { es.metadata with isActive := false } })

/-- The manager's state-mutating operations (`getSecret` reads only). -/
inductive MgrOp where
  | store (name value : String) (stype : SecretType) (now : Nat)
  | rotate (name newValue : String) (now : Nat)
  | revoke (name : String)

/-- Apply one operation. -/
def applyOp (enc : String → String × String × String) (s : MgrState) : MgrOp → MgrState
  | .store name value stype now => storeSecret enc s name value stype now
  | .rotate name newValue now => (rotateSecret enc newValue s name now).2
  | .revoke name => (revokeSecret s name).2

/-- Apply a sequence of operations. -/
def applyOps (enc : String → String × String × String) (s : MgrState) : List MgrOp → MgrState
  | [] => s
  | op :: ops => applyOps enc (applyOp enc s op) ops

/-- The operation re-creates the secret `n` (the only way to reactivate
it). -/
def isStoreOf (n : String) : MgrOp → Bool
  | .store name _ _ _ => name == n
  | _ => false

end Creds

namespace PathGuard

/-- Lower-casing a path (the `i` flag / `toLowerCase()` calls). -/
def lowerP (s : List Char) : List Char := s.map Char.toLower

/-- `pat` occurs somewhere strictly after an occurrence of the character
`c` (the regexes `/\?.*\.\./` and `/#.*\.\./`). -/
def containsAfter (c : Char) (pat : List Char) : List Char → Bool
  | [] => false
  | x :: rest => (x = c && containsL pat rest) || containsAfter c pat rest

/-- `/^\/home\/.*\/\./gi`: a `/home/` prefix with a later `/.`. -/
def homeDotPattern (l : List Char) : Bool :=
  "/home/".data.isPrefixOf l && containsL "/.".data (l.drop 6)

/-- The `DANGEROUS_PATH_PATTERNS` list of `path-traversal-protection.ts`,
tested on the recursively URL-decoded path. Containment tests that several
regexes share are written once; `l` is the lower-cased path for the
case-insensitive entries:
dot runs and separators (`/\.\./`, `/\.{2,}/`, `/\x2e\x2e/`,
`/\.\/|\.\\/`, `/\/\.\./`, `/\\\.\.\\?/`, `/\.\.\/|\.\.\\/`, `/\.\.\//`,
`/\/\.{2,}/`, `/\\\.{2,}\\?/`, `/\.\.[\\/]/`, `/[\\/]\.\.[\\/]/`,
`/^\.\./`, `/\.\.$/`), URL-encoded variants (`/%2e%2e/gi`,
`/%252e%252e/gi`, `/%c0%ae%c0%ae/gi`, `/%e0%80%ae%e0%80%ae/gi`,
`/\.%2e/gi`, `/%2e\./gi`, `/\.%252e/gi`, `/%252e\./gi`), query/fragment
smuggling (`/\?.*\.\./`, `/#.*\.\./`), the `file:` protocol, and the
forbidden absolute prefixes (`/^\/proc\//gi` … `/^C:\\Program Files\\/gi`,
`/^\/etc\//gi`, `/^\/var\//gi`, `/^\/root\//gi`, `/^\/home\/.*\/\./gi`). -/
def dangerousPathPatterns (d : List Char) : Bool :=
  let l := lowerP d
  containsL "..".data d ||
  containsL "./".data d || containsL ".\\".data d ||
  containsL "/..".data d ||
  containsL "\\..".data d ||
  containsL "../".data d || containsL "..\\".data d ||
  containsL "%2e%2e".data l ||
  containsL "%252e%252e".data l ||
  containsL "%c0%ae%c0%ae".data l ||
  containsL "%e0%80%ae%e0%80%ae".data l ||
  containsL ".%2e".data l || containsL "%2e.".data l ||
  containsL ".%252e".data l || containsL "%252e.".data l ||
  containsAfter '?' "..".data d ||
  containsAfter '#' "..".data d ||
  containsL "file:".data l ||
  "/proc/".data.isPrefixOf l || "/dev/".data.isPrefixOf l ||
  "/sys/".data.isPrefixOf l ||
  "c:\\windows\\".data.isPrefixOf l ||
  "c:\\program files\\".data.isPrefixOf l ||
  "/etc/".data.isPrefixOf l || "/var/".data.isPrefixOf l ||
  "/root/".data.isPrefixOf l ||
  homeDotPattern l ||
  "..".data.isPrefixOf d || "..".data.isSuffixOf d

/-- `DANGEROUS_EXTENSIONS`. -/
def dangerousExtensions : List (List Char) :=
  [".exe", ".bat", ".cmd", ".scr", ".vbs", ".js", ".jar",
   ".sh", ".ps1", ".py", ".php", ".asp", ".aspx", ".jsp",
   ".dll", ".sys", ".ini", ".cfg", ".conf", ".htaccess",
   ".passwd", ".shadow", ".key", ".pem", ".crt"].map String.data

/-- `FORBIDDEN_DIRECTORIES`. -/
def forbiddenDirectories : List (List Char) :=
  ["/etc", "/proc", "/dev", "/sys", "/root", "/boot",
   "/var/log", "/var/lib", "/usr/bin", "/usr/sbin",
   "C:\\Windows", "C:\\Program Files", "C:\\Program Files (x86)",
   "C:\\Users\\Default", "C:\\ProgramData", "C:\\System Volume Information",
   "/System", "/Library", "/private", "/usr/local/bin"].map String.data

/-- `FORBIDDEN_FILENAMES`. -/
def forbiddenFilenames : List (List Char) :=
  ["passwd", "shadow", "hosts", "fstab", "sudoers",
   "web.config", ".htaccess", ".htpasswd", ".env",
   "config.php", "wp-config.php", "database.yml",
   "secrets.json", "private.key", "id_rsa", "id_dsa"].map String.data

/-- Value of a percent-escape hex digit. -/
def pctHexVal (c : Char) : Option Nat :=
  if '0' ≤ c ∧ c ≤ '9' then some (c.toNat - 48)
  else if 'a' ≤ c ∧ c ≤ 'f' then some (c.toNat - 87)
  else if 'A' ≤ c ∧ c ≤ 'F' then some (c.toNat - 55)
  else none

/-- `decodeURIComponent`, modelled at the single-byte level: `%XX` becomes
the character with code `XX` and a malformed escape throws (`none`). The
real decoder additionally validates multi-byte UTF-8 escape sequences;
the inputs the claims evaluate contain no `%` at all, where the model is
exact. -/
def percentDecode : List Char → Option (List Char)
  | [] => some []
  | '%' :: c1 :: c2 :: rest =>
    (match pctHexVal c1, pctHexVal c2 with
     | some h, some lo =>
       (match percentDecode rest with
        | some r => some (Char.ofNat (h * 16 + lo) :: r)
        | none => none)
     | _, _ => none)
  | '%' :: _ => none
  | c :: rest =>
    (match percentDecode rest with
     | some r => some (c :: r)
     | none => none)

/-- The decode loop of `sanitizeFilePath`: decode repeatedly (at most 5
times) until a fixpoint; a decoding error keeps the previous value. -/
def decodeLoop : Nat → List Char → List Char
  | 0, s => s
  | k + 1, s =>
    match percentDecode s with
    | none => s
    | some d => if d = s then s else decodeLoop k d

/-- One step of POSIX `path.normalize` segment processing: `.` and empty
segments vanish; `..` pops a real segment, is dropped at the root of an
absolute path, and accumulates at the front of a relative path. -/
def normAux (isAbs : Bool) : List (List Char) → List (List Char) → List (List Char)
  | stack, [] => stack.reverse
  | stack, seg :: rest =>
    if seg = [] ∨ seg = ['.'] then normAux isAbs stack rest
    else if seg = ['.', '.'] then
      match stack with
      | top :: stack' =>
        if top = ['.', '.'] then normAux isAbs (seg :: top :: stack') rest
        else normAux isAbs stack' rest
      | [] => if isAbs then normAux isAbs [] rest else normAux isAbs [seg] rest
    else normAux isAbs (seg :: stack) rest

/-- POSIX `path.normalize` (trailing-slash preservation left out; no input
under evaluation carries one). -/
def posixNormalize (s : List Char) : List Char :=
  let isAbs : Bool := match s with | '/' :: _ => true | _ => false
  let segs := normAux isAbs [] (s.splitOn '/')
  let body := List.intercalate ['/'] segs
  if isAbs then '/' :: body
  else if body = [] then ['.'] else body

/-- POSIX `path.basename`: the part after the last `/`. -/
def lastSeg (s : List Char) : List Char := (s.splitOn '/').getLastD []

/-- POSIX `path.extname`: from the last `.` of the basename when it is not
its first character. -/
def extnameL (s : List Char) : List Char :=
  let base := lastSeg s
  match ((List.range base.length).filter (fun i => base.get? i = some '.')).getLast? with
  | some i => if i = 0 then [] else base.drop i
  | none => []

/-- The character class `[<>:"|?*\x00-\x1f\x7f]` of the invalid-character
check. -/
def isInvalidPathChar (c : Char) : Bool :=
  c = '<' || c = '>' || c = ':' || c = '"' || c = '|' || c = '?' || c = '*' ||
  c.toNat ≤ 31 || c.toNat = 127

/-- JavaScript `String.trim` over ASCII whitespace. -/
def trimL (s : List Char) : List Char :=
  ((s.dropWhile XSS.isSpaceChar).reverse.dropWhile XSS.isSpaceChar).reverse

/-- The rejection categories of `sanitizeFilePath` (the French reason
strings, reduced to tags). -/
inductive RejectReason where
  | emptyPath | dangerousPattern | dangerousExtension
  | forbiddenDirectory | forbiddenFilename | tooLong | invalidChars
deriving Repr, DecidableEq

/-- The `low`/`medium`/`high`/`critical` severity scale. -/
inductive Severity where
  | low | medium | high | critical
deriving Repr, DecidableEq

/-- `PathValidationResult`. -/
inductive PathValidationResult where
  | valid (sanitized : List Char)
  | invalid (reason : RejectReason) (severity : Severity)
deriving Repr, DecidableEq

/-- `sanitizeFilePath` of `path-traversal-protection.ts`: trim, URL-decode
up to 5 rounds, reject dangerous patterns, normalize (backslashes then
turned into slashes), reject dangerous extensions, forbidden directory
prefixes (case-insensitive `startsWith`), forbidden filenames, over-long
paths, and invalid characters; otherwise return the normalized path. -/
def sanitizeFilePath (filePath : List Char) : PathValidationResult :=
  if filePath = [] then .invalid .emptyPath .medium
  else
    let originalPath := trimL filePath
    let decodedPath := decodeLoop 5 originalPath
    if dangerousPathPatterns decodedPath then .invalid .dangerousPattern .high
    else
      let normalizedPath :=
        (posixNormalize decodedPath).map (fun c => if c = '\\' then '/' else c)
      let ext := lowerP (extnameL normalizedPath)
      if dangerousExtensions.any (fun e => e = ext) then
        .invalid .dangerousExtension .high
      else if forbiddenDirectories.any
          (fun dir => (lowerP dir).isPrefixOf (lowerP normalizedPath)) then
        .invalid .forbiddenDirectory .critical
      else
        let filename := lowerP (lastSeg normalizedPath)
        if forbiddenFilenames.any
            (fun f => filename = f || (f ++ ['.']).isPrefixOf filename) then
          .invalid .forbiddenFilename .high
        else if 255 < normalizedPath.length then .invalid .tooLong .medium
        else if normalizedPath.any isInvalidPathChar then .invalid .invalidChars .medium
        else .valid normalizedPath

/-- `path.resolve(base, p)` for an absolute `base` (the working directory
never enters): an absolute `p` wins, otherwise `p` is joined onto
`base`. -/
def resolveL (base p : List Char) : List Char :=
  match p with
  | '/' :: _ => posixNormalize p
  | _ => posixNormalize (base ++ '/' :: p)

/-- `createSecurePath(basePath, userPath)`: sanitize the user path, resolve
it against the base, and return it when the resolved path `startsWith` the
resolved base — a plain string-prefix test. -/
def createSecurePath (basePath userPath : List Char) : Option (List Char) :=
  match sanitizeFilePath userPath with
  | .invalid _ _ => none
  | .valid sanitized =>
    let fullPath := resolveL basePath sanitized
    let normalizedBasePath := posixNormalize basePath
    if normalizedBasePath.isPrefixOf fullPath then some fullPath else none

end PathGuard

namespace CORS

/-- The components of a parsed WHATWG `URL` that `isOriginAllowed`
reads. -/
structure URLInfo where
  origin : String
  protocol : String
  hostname : String
  port : String
deriving Repr, DecidableEq

/-- `PRODUCTION_ALLOWED_ORIGINS`: the configured `FRONTEND_URL` plus the
three fixed origins, with falsy (empty) entries filtered out. -/
def productionAllowedOrigins (frontendUrl : String) : List String :=
  [frontendUrl, "https://freelance-os.com", "https://www.freelance-os.com",
   "https://app.freelance-os.com"].filter (fun s => s ≠ "")

/-- `DEV_ALLOWED_PORTS`. -/
def devAllowedPorts : List Nat := [3000, 3001, 5173, 5174, 8080, 8081, 4200]

/-- `parseInt(url.port) || (url.protocol === 'https:' ? 443 : 80)`:
an absent or zero port falls back to the protocol default. -/
def portOrDefault (port protocol : String) : Nat :=
  match port.toNat? with
  | some n => if n = 0 then (if protocol = "https:" then 443 else 80) else n
  | none => if protocol = "https:" then 443 else 80

/-- `isOriginAllowed(origin, environment)` of `cors-security.ts`,
parameterized by the `URL` parser (`none` models the constructor
throwing): an absent origin is allowed exactly in the `development`
environment; in production the parsed origin must equal the origin of an
allow-list entry; in development a non-loopback hostname must match a
production allow-list entry and a loopback hostname must use an allowed
port; any other environment refuses. -/
def isOriginAllowed (parseURL : String → Option URLInfo) (frontendUrl : String)
    (origin : Option String) (environment : String) : Bool :=
  match origin with
  | none => environment == "development"
  | some o =>
    match parseURL o with
    | none => false
    | some url =>
      if environment = "production" then
        (productionAllowedOrigins frontendUrl).any (fun allowed =>
          match parseURL allowed with
          | none => false
          | some au => url.origin == au.origin)
      else if environment = "development" then
        if url.hostname ≠ "localhost" ∧ url.hostname ≠ "127.0.0.1" ∧
            url.hostname ≠ "::1" then
          (productionAllowedOrigins frontendUrl).any (fun allowed =>
            match parseURL allowed with
            | none => false
            | some au => au.origin == url.origin)
        else
          devAllowedPorts.contains (portOrDefault url.port url.protocol)
      else false

end CORS

namespace ErrHandler

/-- `ErrorType` of `secure-error-handler.ts`. -/
inductive ErrorType where
  | validation | authentication | authorization | resourceNotFound
  | rateLimit | internal | database | externalService | security
deriving Repr, DecidableEq

/-- `ErrorSeverity`. -/
inductive ErrorSeverity where
  | low | medium | high | critical
deriving Repr, DecidableEq

/-- `ERROR_STATUS_CODES`. -/
def errorStatusCode : ErrorType → Nat
  | .validation => 400
  | .authentication => 401
  | .authorization => 403
  | .resourceNotFound => 404
  | .rateLimit => 429
  | .internal => 500
  | .database => 500
  | .externalService => 503
  | .security => 403

/-- `determineSeverity(type, statusCode)`. -/
def determineSeverity (t : ErrorType) (statusCode : Nat) : ErrorSeverity :=
  if t = .security then .critical
  else if 500 ≤ statusCode then .high
  else if 400 ≤ statusCode then .medium
  else .low

/-- The classification fields of a `SecureError` (the random error id, the
message strings and the timestamp carry no logic and are left out). -/
structure SecureError where
  etype : ErrorType
  severity : ErrorSeverity
  statusCode : Nat
deriving Repr, DecidableEq

/-- `createSecureError(type, _, options)`: explicit status and severity
options override the defaults (`options.x || default`). -/
def createSecureError (t : ErrorType) (optStatus : Option Nat)
    (optSeverity : Option ErrorSeverity) : SecureError :=
  let statusCode := optStatus.getD (errorStatusCode t)
  let severity := optSeverity.getD (determineSeverity t statusCode)
  ⟨t, severity, statusCode⟩

/-- What one global handler invocation does: the classification it logs
and whether it schedules `process.exit(1)`. -/
structure HandlerOutcome where
  err : SecureError
  exitsProcess : Bool
deriving Repr, DecidableEq

/-- The `process.on('uncaughtException')` handler installed by
`setupGlobalErrorHandlers`: classify INTERNAL with explicit CRITICAL
severity, log, and in production only schedule `process.exit(1)`. -/
def uncaughtExceptionHandler (nodeEnv : String) : HandlerOutcome :=
  ⟨createSecureError .internal none (some .critical), nodeEnv == "production"⟩

/-- The `process.on('unhandledRejection')` handler: classify INTERNAL with
explicit HIGH severity and log; no termination path exists in any
environment. -/
def unhandledRejectionHandler (_nodeEnv : String) : HandlerOutcome :=
  ⟨createSecureError .internal none (some .high), false⟩

end ErrHandler

namespace RateLimit

lemma le_jsCeilDiv_mul (a b : Nat) (hb : 0 < b) : a ≤ jsCeilDiv a b * b := by
  unfold jsCeilDiv
  rw [Nat.mul_comm]
  have h1 := Nat.div_add_mod (a + b - 1) b
  have h2 := Nat.mod_lt (a + b - 1) hb
  omega

lemma check_blocked (cfg : RateLimitConfig) (now : Nat) (s : RLState)
    (h : isIPBlocked s now = true) :
    check cfg now s = (.blockedDeny 300, s) := by
  simp [check, h]

lemma check_allow (cfg : RateLimitConfig) (now : Nat) (s : RLState) (w : List Nat)
    (hb : isIPBlocked s now = false) (hw : liveWindow s now = w)
    (hkeep : ∀ x ∈ w, now < x + cfg.windowMs)
    (hlt : w.length < cfg.maxRequests) :
    check cfg now s =
      (.allow ((cfg.maxRequests : Int) - w.length - 1),
       { window := w ++ [now],
         winExpiry := some (now + jsCeilDiv cfg.windowMs 1000 * 1000),
         block := s.block }) := by
  have hf : (liveWindow s now).filter (fun t => decide (now < t + cfg.windowMs)) = w := by
    rw [hw]
    exact List.filter_eq_self.mpr (fun a ha => by simpa using hkeep a ha)
  simp only [check, hb, Bool.false_eq_true, if_false, hf]
  rw [if_neg (Nat.not_le.mpr hlt)]

lemma check_deny (cfg : RateLimitConfig) (now : Nat) (s : RLState) (w : List Nat) (d : Nat)
    (hb : isIPBlocked s now = false) (hw : liveWindow s now = w)
    (hkeep : ∀ x ∈ w, now < x + cfg.windowMs)
    (hge : cfg.maxRequests ≤ w.length) (hd : cfg.blockDuration = some d) :
    check cfg now s =
      (.rateDeny (jsCeilDiv cfg.windowMs 1000),
       { window := w, winExpiry := s.winExpiry, block := some (now + d * 1000) }) := by
  have hf : (liveWindow s now).filter (fun t => decide (now < t + cfg.windowMs)) = w := by
    rw [hw]
    exact List.filter_eq_self.mpr (fun a ha => by simpa using hkeep a ha)
  simp only [check, hb, Bool.false_eq_true, if_false, hf]
  rw [if_pos hge, hd]
  rfl

/-- An unblocked client whose requests all fit inside one window is allowed
throughout; the resulting window holds exactly those timestamps. -/
lemma run_allows (cfg : RateLimitConfig) :
    ∀ (ts : List Nat) (s : RLState) (hi : Nat),
      s.block = none →
      (∀ e, s.winExpiry = some e → ∀ t ∈ ts, t < e) →
      (∀ x ∈ s.window, hi < x + cfg.windowMs) →
      (∀ t ∈ ts, t ≤ hi ∧ hi < t + cfg.windowMs) →
      s.window.length + ts.length ≤ cfg.maxRequests →
      (∀ dc ∈ (run cfg s ts).1, ∃ r, dc = Decision.allow r) ∧
      (run cfg s ts).2.window = s.window ++ ts ∧
      (run cfg s ts).2.block = none ∧
      (∀ e, (run cfg s ts).2.winExpiry = some e →
        s.winExpiry = some e ∨ ∃ t ∈ ts, e = t + jsCeilDiv cfg.windowMs 1000 * 1000)
  | [], s, hi, hblock, hwe, hwin, hts, hlen => by
      refine ⟨by simp [run], by simp [run], by simp [run, hblock], ?_⟩
      intro e he
      exact Or.inl (by simpa [run] using he)
  | t :: ts, s, hi, hblock, hwe, hwin, hts, hlen => by
      have hWle : cfg.windowMs ≤ jsCeilDiv cfg.windowMs 1000 * 1000 :=
        le_jsCeilDiv_mul cfg.windowMs 1000 (by norm_num)
      have hb : isIPBlocked s t = false := by simp [isIPBlocked, hblock]
      have hlw : liveWindow s t = s.window := by
        cases hcase : s.winExpiry with
        | none => simp [liveWindow, hcase]
        | some e =>
          have he := hwe e hcase t (by simp)
          simp only [liveWindow, hcase]
          rw [if_neg (by omega)]
      have hkeep : ∀ x ∈ s.window, t < x + cfg.windowMs := by
        intro x hx
        have h1 := hwin x hx
        have h2 := (hts t (by simp)).1
        omega
      have hlt : s.window.length < cfg.maxRequests := by
        simp only [List.length_cons] at hlen; omega
      have hstep := check_allow cfg t s s.window hb hlw hkeep hlt
      have hthi := hts t (by simp)
      have ih := run_allows cfg ts
        { window := s.window ++ [t],
          winExpiry := some (t + jsCeilDiv cfg.windowMs 1000 * 1000),
          block := s.block }
        hi hblock
        (by
          intro e he t' ht'
          simp only [Option.some.injEq] at he
          have h1 := (hts t' (by simp [ht'])).1
          have h2 := (hts t (by simp)).2
          omega)
        (by
          intro x hx
          rcases List.mem_append.mp hx with h | h
          · exact hwin x h
          · simp only [List.mem_singleton] at h
            subst h
            exact hthi.2)
        (fun t' ht' => hts t' (by simp [ht']))
        (by simp only [List.length_append, List.length_singleton, List.length_nil,
              List.length_cons] at hlen ⊢; omega)
      simp only [run, hstep]
      refine ⟨?_, ?_, ih.2.2.1, ?_⟩
      · intro dc hdc
        rcases List.mem_cons.mp hdc with h | h
        · exact ⟨_, h⟩
        · exact ih.1 dc h
      · rw [ih.2.1]; simp
      · intro e he
        rcases ih.2.2.2 e he with h | h
        · simp only [Option.some.injEq] at h
          exact Or.inr ⟨t, by simp, h.symm⟩
        · rcases h with ⟨t', ht', he'⟩
          exact Or.inr ⟨t', by simp [ht'], he'⟩

/-- C1 counterexample: with the auth limits (5 per 15 min, 30 min block),
six attempts at 0 s, 1 s, …, 5 s give five passes and then a 429 whose
`retryAfter` is 900 s (the window length), not ≈ 1800 s (the block
duration) as claimed; the attempt 1 s later is rejected because of the
block. -/
theorem C1_counterexample :
    (run authLimits emptyState [0, 1000, 2000, 3000, 4000, 5000]).1 =
      [.allow 4, .allow 3, .allow 2, .allow 1, .allow 0, .rateDeny 900] ∧
    (Decision.rateDeny 900 ≠ Decision.rateDeny 1800) ∧
    (check authLimits 6000 (run authLimits emptyState [0, 1000, 2000, 3000, 4000, 5000]).2).1 =
      Decision.blockedDeny 300 := by
  refine ⟨by decide, by decide, by decide⟩

/-- C1 amended: for any six auth attempts at strictly increasing times all
within one 15-minute window, attempt 6 is rejected with
`retryAfter = 900` seconds (the window length — not the 1800 s block
duration), the client is blocked, and an attempt 1 second later is
rejected because of the block, independent of the window contents. -/
theorem C1_amended (t1 t2 t3 t4 t5 t6 : Nat)
    (h12 : t1 < t2) (h23 : t2 < t3) (h34 : t3 < t4) (h45 : t4 < t5) (h56 : t5 < t6)
    (hwin : t6 < t1 + 900000) :
    (run authLimits emptyState [t1, t2, t3, t4, t5, t6]).1 =
      [.allow 4, .allow 3, .allow 2, .allow 1, .allow 0, .rateDeny 900] ∧
    (check authLimits (t6 + 1000)
        (run authLimits emptyState [t1, t2, t3, t4, t5, t6]).2).1 =
      Decision.blockedDeny 300 := by
  have e1 : check authLimits t1 emptyState =
      (.allow 4, ⟨[t1], some (t1 + 900000), none⟩) := by
    rw [check_allow authLimits t1 emptyState [] rfl rfl
      (by intro x hx; simp at hx) (by norm_num [authLimits])]
    norm_num [authLimits, jsCeilDiv, emptyState]
  have e2 : check authLimits t2 ⟨[t1], some (t1 + 900000), none⟩ =
      (.allow 3, ⟨[t1, t2], some (t2 + 900000), none⟩) := by
    rw [check_allow authLimits t2 ⟨[t1], some (t1 + 900000), none⟩ [t1] rfl
      (by simp only [liveWindow]; rw [if_neg (by omega)])
      (by intro x hx; simp at hx; subst hx; norm_num [authLimits]; omega)
      (by norm_num [authLimits])]
    norm_num [authLimits, jsCeilDiv]
  have e3 : check authLimits t3 ⟨[t1, t2], some (t2 + 900000), none⟩ =
      (.allow 2, ⟨[t1, t2, t3], some (t3 + 900000), none⟩) := by
    rw [check_allow authLimits t3 ⟨[t1, t2], some (t2 + 900000), none⟩ [t1, t2] rfl
      (by simp only [liveWindow]; rw [if_neg (by omega)])
      (by intro x hx; simp at hx; norm_num [authLimits]; rcases hx with rfl | rfl <;> omega)
      (by norm_num [authLimits])]
    norm_num [authLimits, jsCeilDiv]
  have e4 : check authLimits t4 ⟨[t1, t2, t3], some (t3 + 900000), none⟩ =
      (.allow 1, ⟨[t1, t2, t3, t4], some (t4 + 900000), none⟩) := by
    rw [check_allow authLimits t4 ⟨[t1, t2, t3], some (t3 + 900000), none⟩ [t1, t2, t3] rfl
      (by simp only [liveWindow]; rw [if_neg (by omega)])
      (by intro x hx; simp at hx; norm_num [authLimits]; rcases hx with rfl | rfl | rfl <;> omega)
      (by norm_num [authLimits])]
    norm_num [authLimits, jsCeilDiv]
  have e5 : check authLimits t5 ⟨[t1, t2, t3, t4], some (t4 + 900000), none⟩ =
      (.allow 0, ⟨[t1, t2, t3, t4, t5], some (t5 + 900000), none⟩) := by
    rw [check_allow authLimits t5 ⟨[t1, t2, t3, t4], some (t4 + 900000), none⟩
      [t1, t2, t3, t4] rfl
      (by simp only [liveWindow]; rw [if_neg (by omega)])
      (by intro x hx; simp at hx; norm_num [authLimits];
          rcases hx with rfl | rfl | rfl | rfl <;> omega)
      (by norm_num [authLimits])]
    norm_num [authLimits, jsCeilDiv]
  have e6 : check authLimits t6 ⟨[t1, t2, t3, t4, t5], some (t5 + 900000), none⟩ =
      (.rateDeny 900, ⟨[t1, t2, t3, t4, t5], some (t5 + 900000), some (t6 + 1800000)⟩) := by
    rw [check_deny authLimits t6 ⟨[t1, t2, t3, t4, t5], some (t5 + 900000), none⟩
      [t1, t2, t3, t4, t5] 1800 rfl
      (by simp only [liveWindow]; rw [if_neg (by omega)])
      (by intro x hx; simp at hx; norm_num [authLimits];
          rcases hx with rfl | rfl | rfl | rfl | rfl <;> omega)
      (by norm_num [authLimits])
      (by norm_num [authLimits])]
    norm_num [authLimits, jsCeilDiv, blockIP]
  have hrun : run authLimits emptyState [t1, t2, t3, t4, t5, t6] =
      ([.allow 4, .allow 3, .allow 2, .allow 1, .allow 0, .rateDeny 900],
       ⟨[t1, t2, t3, t4, t5], some (t5 + 900000), some (t6 + 1800000)⟩) := by
    simp only [run, e1, e2, e3, e4, e5, e6]
  refine ⟨by rw [hrun], ?_⟩
  rw [hrun]
  rw [check_blocked authLimits (t6 + 1000)
    ⟨[t1, t2, t3, t4, t5], some (t5 + 900000), some (t6 + 1800000)⟩
    (by simp [isIPBlocked])]

/-- C2: the sliding-window/IP-blocking contract of
`advancedRateLimitMiddleware` for one client and key: (1) a blocked client
is rejected immediately with the untouched state; (2) timestamps at or
before `now - windowMs` are purged and never count — appending them to the
stored window does not change the outcome; (3) once `maxRequests` requests
were recorded within the window, the next check is denied with
`retryAfter = ceil(windowMs/1000)` and a block entry with the category's
block duration is created; (4) an allowed request appends the current
timestamp and refreshes the key's TTL to the window length; (5) once the
block duration has elapsed (every category's block duration is at least its
window), the client is allowed again. -/
theorem C2_sliding_window_contract (cfg : RateLimitConfig) (d : Nat)
    (hd : cfg.blockDuration = some d) (hmax : 1 ≤ cfg.maxRequests)
    (hdur : cfg.windowMs ≤ d * 1000) :
    (∀ now s, isIPBlocked s now = true → check cfg now s = (.blockedDeny 300, s)) ∧
    (∀ now (s : RLState) (stale : List Nat), isIPBlocked s now = false →
      (∀ t ∈ stale, t + cfg.windowMs ≤ now) →
      check cfg now ⟨s.window ++ stale, s.winExpiry, s.block⟩ = check cfg now s) ∧
    (∀ (ts : List Nat) (tnext : Nat), ts.length = cfg.maxRequests →
      (∀ t ∈ ts, t ≤ tnext ∧ tnext < t + cfg.windowMs) →
      (∀ dc ∈ (run cfg emptyState ts).1, ∃ r, dc = Decision.allow r) ∧
      (check cfg tnext (run cfg emptyState ts).2).1 =
        .rateDeny (jsCeilDiv cfg.windowMs 1000) ∧
      (check cfg tnext (run cfg emptyState ts).2).2.block = some (tnext + d * 1000)) ∧
    (∀ now s, isIPBlocked s now = false →
      ((liveWindow s now).filter (fun t => decide (now < t + cfg.windowMs))).length
          < cfg.maxRequests →
      (check cfg now s).2.window =
        (liveWindow s now).filter (fun t => decide (now < t + cfg.windowMs)) ++ [now] ∧
      (check cfg now s).2.winExpiry = some (now + jsCeilDiv cfg.windowMs 1000 * 1000)) ∧
    (∀ (s : RLState) (tb now : Nat), s.block = some (tb + d * 1000) →
      (∀ x ∈ s.window, x ≤ tb) → tb + d * 1000 ≤ now →
      ∃ r, (check cfg now s).1 = Decision.allow r) := by
  refine ⟨check_blocked cfg, ?_, ?_, ?_, ?_⟩
  · -- (2) stale entries do not affect the outcome
    intro now s stale hb hstale
    obtain ⟨w, we, b⟩ := s
    have hnil : stale.filter (fun t => decide (now < t + cfg.windowMs)) = [] := by
      refine List.filter_eq_nil_iff.mpr ?_
      intro t ht
      have := hstale t ht
      simp only [decide_eq_true_eq]
      omega
    have hf : (liveWindow ⟨w ++ stale, we, b⟩ now).filter
          (fun t => decide (now < t + cfg.windowMs)) =
        (liveWindow ⟨w, we, b⟩ now).filter (fun t => decide (now < t + cfg.windowMs)) := by
      cases we with
      | none => simp [liveWindow, List.filter_append, hnil]
      | some e =>
        by_cases he : e ≤ now
        · simp [liveWindow, he]
        · simp [liveWindow, he, List.filter_append, hnil]
    have hb2 : isIPBlocked ⟨w ++ stale, we, b⟩ now = false := hb
    simp only [check, hb, hb2, Bool.false_eq_true, if_false, hf]
  · -- (3) limit reached within the window ⇒ denial and block creation
    intro ts tnext hN hts
    have h := run_allows cfg ts emptyState tnext rfl
      (by intro e he; simp [emptyState] at he)
      (by intro x hx; simp [emptyState] at hx)
      hts
      (by simp [emptyState, hN])
    have hSw : (run cfg emptyState ts).2.window = ts := by
      have := h.2.1; simpa [emptyState] using this
    have hSb : (run cfg emptyState ts).2.block = none := h.2.2.1
    have hb : isIPBlocked (run cfg emptyState ts).2 tnext = false := by
      simp [isIPBlocked, hSb]
    have hlw : liveWindow (run cfg emptyState ts).2 tnext = ts := by
      cases hwe : (run cfg emptyState ts).2.winExpiry with
      | none => simp [liveWindow, hwe, hSw]
      | some e =>
        rcases h.2.2.2 e hwe with hcontra | ⟨t, htm, het⟩
        · simp [emptyState] at hcontra
        · have h1 := (hts t htm).2
          have h2 : cfg.windowMs ≤ jsCeilDiv cfg.windowMs 1000 * 1000 :=
            le_jsCeilDiv_mul cfg.windowMs 1000 (by norm_num)
          simp only [liveWindow, hwe, hSw]
          rw [if_neg (by omega)]
    have hdeny := check_deny cfg tnext (run cfg emptyState ts).2 ts d hb hlw
      (fun x hx => (hts x hx).2) (by rw [hN]) hd
    exact ⟨h.1, by rw [hdeny], by rw [hdeny]⟩
  · -- (4) allowed request: append timestamp, refresh TTL
    intro now s hb hlt
    obtain ⟨w, we, b⟩ := s
    simp only [check, hb, Bool.false_eq_true, if_false]
    rw [if_neg (Nat.not_le.mpr hlt)]
    exact ⟨rfl, rfl⟩
  · -- (5) after the block duration elapses, the client is allowed again
    intro s tb now hblk hwold hnow
    obtain ⟨w, we, b⟩ := s
    have hbeq : b = some (tb + d * 1000) := hblk
    subst hbeq
    have hb : isIPBlocked ⟨w, we, some (tb + d * 1000)⟩ now = false := by
      simp [isIPBlocked]; omega
    have hempty : (liveWindow ⟨w, we, some (tb + d * 1000)⟩ now).filter
        (fun t => decide (now < t + cfg.windowMs)) = [] := by
      refine List.filter_eq_nil_iff.mpr ?_
      intro t ht
      have hsub : t ∈ w := by
        simp only [liveWindow] at ht
        cases we with
        | none => exact ht
        | some e =>
          by_cases he : e ≤ now
          · simp [he] at ht
          · simpa [he] using ht
      have := hwold t hsub
      simp only [decide_eq_true_eq]
      omega
    simp only [check, hb, Bool.false_eq_true, if_false, hempty, List.length_nil]
    rw [if_neg (by omega)]
    exact ⟨_, rfl⟩

/-- Witness for C2 with the auth category: five requests at 0–4 ms fill the
window, the check at 5 ms is denied with `retryAfter` 900 and creates a
30-minute block, and a client whose block has elapsed is allowed again. -/
theorem C2_witness :
    authLimits.blockDuration = some 1800 ∧
    (check authLimits 5 (run authLimits emptyState [0, 1, 2, 3, 4]).2).1 =
      Decision.rateDeny 900 ∧
    (check authLimits 5 (run authLimits emptyState [0, 1, 2, 3, 4]).2).2.block =
      some (5 + 1800 * 1000) ∧
    (∃ r, (check authLimits 1800000
        (⟨[0], none, some (0 + 1800 * 1000)⟩ : RLState)).1 = Decision.allow r) := by
  have h := C2_sliding_window_contract authLimits 1800 (by norm_num [authLimits])
    (by norm_num [authLimits]) (by norm_num [authLimits])
  have h3 := h.2.2.1 [0, 1, 2, 3, 4] 5 (by decide) (by decide)
  have h5 := h.2.2.2.2 (⟨[0], none, some (0 + 1800 * 1000)⟩ : RLState) 0 1800000
    rfl (by decide) (by decide)
  have hretry : jsCeilDiv authLimits.windowMs 1000 = 900 := by decide
  refine ⟨by decide, ?_, h3.2.2, h5⟩
  rw [h3.2.1, hretry]

/-- Witness for C1 amended at the concrete times 0 s … 5 s. -/
theorem C1_amended_witness :
    (run authLimits emptyState [0, 10, 20, 30, 40, 50]).1 =
      [.allow 4, .allow 3, .allow 2, .allow 1, .allow 0, .rateDeny 900] ∧
    (check authLimits (50 + 1000)
        (run authLimits emptyState [0, 10, 20, 30, 40, 50]).2).1 =
      Decision.blockedDeny 300 :=
  C1_amended 0 10 20 30 40 50 (by decide) (by decide) (by decide) (by decide)
    (by decide) (by decide)

end RateLimit

namespace XSS

lemma stripTagsAux_no_lt : ∀ s : List Char, (∀ c ∈ s, c ≠ '<') →
    stripTagsAux false s = s := by
  intro s
  induction s with
  | nil => intro _; rfl
  | cons c rest ih =>
    intro h
    have hc : c ≠ '<' := h c (by simp)
    simp only [stripTagsAux, if_neg hc]
    rw [ih (fun x hx => h x (by simp [hx]))]

lemma isPrefixOf_head (pat : List Char) (c0 c : Char) (rest : List Char)
    (hh : pat.head? = some c0) (hp : pat.isPrefixOf (c :: rest) = true) : c0 = c := by
  cases pat with
  | nil => simp at hh
  | cons p ps =>
    simp only [List.head?_cons, Option.some.injEq] at hh
    subst hh
    have := List.isPrefixOf_iff_prefix.mp hp
    rw [List.cons_prefix_cons] at this
    exact this.1

lemma replaceAllFuel_no_head (pat rep : List Char) (c0 : Char)
    (hh : pat.head? = some c0) :
    ∀ (fuel : Nat) (s : List Char), (∀ c ∈ s, c ≠ c0) →
      replaceAllFuel pat rep fuel s = s := by
  intro fuel
  induction fuel with
  | zero => intro s _; rfl
  | succ n ih =>
    intro s hs
    cases s with
    | nil => rfl
    | cons c rest =>
      have hne : ¬ (pat.isPrefixOf (c :: rest) ∧ pat ≠ []) := by
        rintro ⟨hp, -⟩
        exact hs c (by simp) (isPrefixOf_head pat c0 c rest hh hp).symm
      simp only [replaceAllFuel, if_neg hne]
      rw [ih rest (fun x hx => hs x (by simp [hx]))]

lemma replaceAll_no_head (pat rep s : List Char) (c0 : Char)
    (hh : pat.head? = some c0) (hs : ∀ c ∈ s, c ≠ c0) :
    replaceAll pat rep s = s :=
  replaceAllFuel_no_head pat rep c0 hh s.length s hs

lemma decodeEntities_no_amp (s : List Char) (h : ∀ c ∈ s, c ≠ '&') :
    decodeEntities s = s := by
  unfold decodeEntities
  rw [replaceAll_no_head "&amp;".data "&".data s '&' rfl h,
      replaceAll_no_head "&lt;".data "<".data s '&' rfl h,
      replaceAll_no_head "&gt;".data ">".data s '&' rfl h,
      replaceAll_no_head "&quot;".data "\"".data s '&' rfl h,
      replaceAll_no_head "&#x27;".data [Char.ofNat 39] s '&' rfl h,
      replaceAll_no_head "&#x2F;".data "/".data s '&' rfl h]

/-- C3 counterexample: `on<b>click=x` matches no dangerous pattern, before
or after HTML-entity decoding, yet `sanitizeXSS` rejects it (the stripped
form `onclick=x` matches the event-handler pattern at the re-check), so
the sanitizer does not return the tag-stripped text as claimed. -/
theorem C3_counterexample :
    matchesXSSPatterns "on<b>click=x".data = false ∧
    matchesXSSPatterns (decodeEntities "on<b>click=x".data) = false ∧
    sanitizeXSS "on<b>click=x".data = none := by
  refine ⟨by decide, by decide, by decide⟩

/-- C3 amended: (1) any input matching a dangerous pattern is rejected;
(2) in particular any input containing `<script>…</script>`; (3) an input
whose tag-stripped, entity-decoded form matches a dangerous pattern is
rejected even when the raw input matches none (single-decoding defense);
(4) an input matching no pattern whose stripped-and-decoded form also
matches no pattern and stays within the 10000-character cap is returned
as that stripped-and-decoded form; (5) tag-free, entity-free benign text
within the cap is returned unchanged. -/
theorem C3_amended :
    (∀ s : List Char, matchesXSSPatterns s = true → sanitizeXSS s = none) ∧
    (∀ s : List Char, containsScriptTag (lower s) = true → sanitizeXSS s = none) ∧
    (∀ s : List Char, matchesXSSPatterns (decodeEntities (stripTags s)) = true →
      sanitizeXSS s = none) ∧
    (∀ s : List Char, matchesXSSPatterns s = false →
      matchesXSSPatterns (decodeEntities (stripTags s)) = false →
      (decodeEntities (stripTags s)).length ≤ 10000 →
      sanitizeXSS s = some (decodeEntities (stripTags s))) ∧
    (∀ s : List Char, (∀ c ∈ s, c ≠ '<' ∧ c ≠ '&') →
      matchesXSSPatterns s = false → s.length ≤ 10000 →
      sanitizeXSS s = some s) := by
  have A : ∀ s : List Char, matchesXSSPatterns s = true → sanitizeXSS s = none := by
    intro s h
    cases s with
    | nil => exact absurd h (by decide)
    | cons c rest => simp [sanitizeXSS, h]
  have D : ∀ s : List Char, matchesXSSPatterns s = false →
      matchesXSSPatterns (decodeEntities (stripTags s)) = false →
      (decodeEntities (stripTags s)).length ≤ 10000 →
      sanitizeXSS s = some (decodeEntities (stripTags s)) := by
    intro s h1 h2 h3
    cases s with
    | nil => decide
    | cons c rest =>
      simp only [sanitizeXSS, List.isEmpty_cons, Bool.false_eq_true, if_false, h1, h2]
      rw [if_neg (Nat.not_lt.mpr h3)]
  refine ⟨A, ?_, ?_, D, ?_⟩
  · intro s h
    exact A s (by simp [matchesXSSPatterns, matchesXSSPatternsLower, h])
  · intro s h
    cases s with
    | nil => exact absurd h (by decide)
    | cons c rest =>
      by_cases h1 : matchesXSSPatterns (c :: rest) = true
      · exact A _ h1
      · have h1' : matchesXSSPatterns (c :: rest) = false :=
          Bool.eq_false_iff.mpr h1
        simp [sanitizeXSS, h1', h]
  · intro s hchars hm hlen
    have hstrip : stripTags s = s :=
      stripTagsAux_no_lt s (fun c hc => (hchars c hc).1)
    have hdec : decodeEntities s = s :=
      decodeEntities_no_amp s (fun c hc => (hchars c hc).2)
    have := D s hm (by rw [hstrip, hdec]; exact hm) (by rw [hstrip, hdec]; exact hlen)
    rw [hstrip, hdec] at this
    exact this

/-- Witness for C3 amended: a script payload and a double-encoded script
payload are rejected; benign text with a disallowed tag comes back with
the tag stripped; benign plain text comes back unchanged. -/
theorem C3_witness :
    sanitizeXSS "<script>alert(1)</script>".data = none ∧
    sanitizeXSS "&amp;lt;script&amp;gt;x&amp;lt;/script&amp;gt;".data = none ∧
    sanitizeXSS "hello <b>world</b>".data = some "hello world".data ∧
    sanitizeXSS "hello".data = some "hello".data := by
  refine ⟨C3_amended.2.1 _ (by decide), C3_amended.2.2.1 _ (by decide), ?_, ?_⟩
  · have h := C3_amended.2.2.2.1 "hello <b>world</b>".data
      (by decide) (by decide) (by decide)
    rw [h]
    decide
  · exact C3_amended.2.2.2.2 "hello".data (by decide) (by decide) (by decide)

end XSS

namespace PII

lemma hexDigitVal_hexDigit (n : Nat) (h : n < 16) :
    hexDigitVal (hexDigit n) = some n := by
  interval_cases n <;> rfl

lemma hexDigit_facts (n : Nat) (h : n < 16) :
    hexDigit n < 256 ∧ 32 ≤ hexDigit n ∧ hexDigit n ≠ 34 ∧ hexDigit n ≠ 92 := by
  unfold hexDigit
  split <;> omega

lemma hexDec_hexEnc : ∀ bs : List Nat, (∀ b ∈ bs, b < 256) →
    hexDec (hexEnc bs) = bs := by
  intro bs
  induction bs with
  | nil => intro _; rfl
  | cons b rest ih =>
    intro h
    have hb := h b (by simp)
    simp only [hexEnc, hexDec, hexDigitVal_hexDigit (b / 16) (by omega),
      hexDigitVal_hexDigit (b % 16) (by omega)]
    rw [ih (fun x hx => h x (by simp [hx]))]
    simp only [List.cons.injEq, and_true]
    omega

lemma hexEnc_mem : ∀ bs : List Nat, (∀ b ∈ bs, b < 256) →
    ∀ c ∈ hexEnc bs, c < 256 ∧ 32 ≤ c ∧ c ≠ 34 ∧ c ≠ 92 := by
  intro bs
  induction bs with
  | nil => intro _ c hc; simp [hexEnc] at hc
  | cons b rest ih =>
    intro h c hc
    have hb := h b (by simp)
    simp only [hexEnc, List.mem_cons] at hc
    rcases hc with rfl | rfl | hc
    · exact hexDigit_facts _ (by omega)
    · exact hexDigit_facts _ (by omega)
    · exact ih (fun x hx => h x (by simp [hx])) c hc

lemma b64Index_b64Char (v : Nat) (h : v < 64) :
    b64Index (b64Char v) = some v := by
  interval_cases v <;> rfl

lemma b64Decode_b64Encode : ∀ bs : List Nat, (∀ b ∈ bs, b < 256) →
    b64Decode (b64Encode bs) = bs := by
  intro bs
  induction bs using b64Encode.induct with
  | case1 => intro _; rfl
  | case2 b1 =>
    intro h
    have hb1 := h b1 (by simp)
    have e1 := b64Index_b64Char (b1 / 4) (by omega)
    have e2 := b64Index_b64Char (b1 % 4 * 16) (by omega)
    simp only [b64Encode, b64Decode, List.filterMap_cons, e1, e2]
    norm_num [b64Index, b64DecodeVals]
    omega
  | case3 b1 b2 =>
    intro h
    have hb1 := h b1 (by simp)
    have hb2 := h b2 (by simp)
    have e1 := b64Index_b64Char (b1 / 4) (by omega)
    have e2 := b64Index_b64Char (b1 % 4 * 16 + b2 / 16) (by omega)
    have e3 := b64Index_b64Char (b2 % 16 * 4) (by omega)
    simp only [b64Encode, b64Decode, List.filterMap_cons, e1, e2, e3]
    norm_num [b64Index, b64DecodeVals]
    constructor <;> omega
  | case4 b1 b2 b3 rest ih =>
    intro h
    have hb1 := h b1 (by simp)
    have hb2 := h b2 (by simp)
    have hb3 := h b3 (by simp)
    have e1 := b64Index_b64Char (b1 / 4) (by omega)
    have e2 := b64Index_b64Char (b1 % 4 * 16 + b2 / 16) (by omega)
    have e3 := b64Index_b64Char (b2 % 16 * 4 + b3 / 64) (by omega)
    have e4 := b64Index_b64Char (b3 % 64) (by omega)
    have ih' := ih (fun x hx => h x (by simp [hx]))
    simp only [b64Decode] at ih'
    simp only [b64Encode, b64Decode, List.filterMap_cons, e1, e2, e3, e4, b64DecodeVals]
    rw [ih']
    simp only [List.cons.injEq]
    refine ⟨by omega, by omega, by omega, trivial⟩

lemma ctrXorFrom_involutive (ks : Nat → Nat) :
    ∀ (msg : List Nat) (i : Nat), ctrXorFrom ks i (ctrXorFrom ks i msg) = msg := by
  intro msg
  induction msg with
  | nil => intro i; rfl
  | cons b rest ih =>
    intro i
    simp only [ctrXorFrom, List.cons.injEq]
    refine ⟨?_, ih (i + 1)⟩
    rw [Nat.xor_assoc, Nat.xor_self, Nat.xor_zero]

lemma ctrXorFrom_mem (ks : Nat → Nat) :
    ∀ (msg : List Nat) (i : Nat), (∀ b ∈ msg, b < 256) →
      ∀ c ∈ ctrXorFrom ks i msg, c < 256 := by
  intro msg
  induction msg with
  | nil => intro i _ c hc; simp [ctrXorFrom] at hc
  | cons b rest ih =>
    intro i h c hc
    simp only [ctrXorFrom, List.mem_cons] at hc
    rcases hc with rfl | hc
    · have h1 : b < 2 ^ 8 := by have := h b (by simp); omega
      have h2 : ks i % 256 < 2 ^ 8 := by have := Nat.mod_lt (ks i) (y := 256) (by omega); omega
      have := Nat.xor_lt_two_pow h1 h2
      omega
    · exact ih (i + 1) (fun x hx => h x (by simp [hx])) c hc

lemma parseStringBody_clean :
    ∀ (content rest : List Nat), (∀ c ∈ content, 32 ≤ c ∧ c ≠ 34 ∧ c ≠ 92) →
      parseStringBody (content ++ 34 :: rest) = some (content, rest) := by
  intro content
  induction content with
  | nil => intro rest _; rfl
  | cons c tail ih =>
    intro rest h
    obtain ⟨h32, h34, h92⟩ := h c (by simp)
    have hlt : ¬ c < 32 := by omega
    have ih2 := ih rest (fun x hx => h x (by simp [hx]))
    simp only [parseStringBody] at ih2 ⊢
    simp only [List.cons_append, parseStringRun, if_neg h34, if_neg h92, if_neg hlt,
      List.append_eq, ih2]

lemma jsonWrap_length (e iv : List Nat) :
    (jsonWrap e iv).length = e.length + iv.length + 24 := by
  have l1 : (strBytes "\x7b\"encrypted\":\"").length = 14 := rfl
  have l2 : (strBytes "\",\"iv\":\"").length = 8 := rfl
  have l3 : (strBytes "\"\x7d").length = 2 := rfl
  simp only [jsonWrap, List.length_append, l1, l2, l3]
  omega

lemma jrun_jsonWrap (fuel : Nat) (e iv : List Nat)
    (he : ∀ c ∈ e, 32 ≤ c ∧ c ≠ 34 ∧ c ≠ 92)
    (hiv : ∀ c ∈ iv, 32 ≤ c ∧ c ≠ 34 ∧ c ≠ 92) :
    jrun (fuel + 6) [] none (jsonWrap e iv) =
      some (.jobj [(strBytes "encrypted", .jstr e), (strBytes "iv", .jstr iv)]) := by
  have hpe := parseStringBody_clean e
    (44 :: 34 :: 105 :: 118 :: 34 :: 58 :: 34 :: (iv ++ 34 :: 125 :: [])) he
  have hpiv := parseStringBody_clean iv (125 :: []) hiv
  have harr : ((e ++ strBytes "\",\"iv\":\"") ++ iv) ++ strBytes "\"\x7d" =
      e ++ 34 :: 44 :: 34 :: 105 :: 118 :: 34 :: 58 :: 34 :: (iv ++ 34 :: 125 :: []) := by
    simp only [List.append_assoc]
    rfl
  have h1 : jrun (fuel + 6) [] none (jsonWrap e iv) =
      (match parseStringBody
          (((e ++ strBytes "\",\"iv\":\"") ++ iv) ++ strBytes "\"\x7d") with
       | some p =>
         jrun (fuel + 4) [JFrame.obj [] (strBytes "encrypted")] (some (JVal.jstr p.1)) p.2
       | none => none) := rfl
  rw [h1, harr, hpe]
  show jrun (fuel + 4) [JFrame.obj [] (strBytes "encrypted")] (some (JVal.jstr e))
      (44 :: 34 :: 105 :: 118 :: 34 :: 58 :: 34 :: (iv ++ 34 :: 125 :: [])) =
    some (JVal.jobj [(strBytes "encrypted", JVal.jstr e), (strBytes "iv", JVal.jstr iv)])
  have h2 : jrun (fuel + 4) [JFrame.obj [] (strBytes "encrypted")] (some (JVal.jstr e))
      (44 :: 34 :: 105 :: 118 :: 34 :: 58 :: 34 :: (iv ++ 34 :: 125 :: [])) =
      (match parseStringBody (iv ++ 34 :: 125 :: []) with
       | some p =>
         jrun (fuel + 2)
           [JFrame.obj [(strBytes "encrypted", JVal.jstr e)] (strBytes "iv")]
           (some (JVal.jstr p.1)) p.2
       | none => none) := rfl
  rw [h2, hpiv]
  show jrun (fuel + 2) [JFrame.obj [(strBytes "encrypted", JVal.jstr e)] (strBytes "iv")]
      (some (JVal.jstr iv)) (125 :: []) =
    some (JVal.jobj [(strBytes "encrypted", JVal.jstr e), (strBytes "iv", JVal.jstr iv)])
  rfl

lemma jsonParseText_jsonWrap (e iv : List Nat)
    (he : ∀ c ∈ e, 32 ≤ c ∧ c ≠ 34 ∧ c ≠ 92)
    (hiv : ∀ c ∈ iv, 32 ≤ c ∧ c ≠ 34 ∧ c ≠ 92) :
    jsonParseText (jsonWrap e iv) =
      some (.jobj [(strBytes "encrypted", .jstr e), (strBytes "iv", .jstr iv)]) := by
  have hl : (jsonWrap e iv).length + 1 = (e.length + iv.length + 19) + 6 := by
    rw [jsonWrap_length]
  unfold jsonParseText
  rw [hl]
  exact jrun_jsonWrap _ e iv he hiv

lemma jGetField_pair (v1 v2 : JVal) :
    jGetField [(strBytes "encrypted", v1), (strBytes "iv", v2)] (strBytes "encrypted") =
      some v1 ∧
    jGetField [(strBytes "encrypted", v1), (strBytes "iv", v2)] (strBytes "iv") = some v2 := by
  have hne : strBytes "iv" ≠ strBytes "encrypted" := by decide
  constructor
  · show (if strBytes "iv" = strBytes "encrypted" then some v2
      else if strBytes "encrypted" = strBytes "encrypted" then some v1 else none) = some v1
    rw [if_neg hne, if_pos rfl]
  · show (if strBytes "iv" = strBytes "iv" then some v2
      else if strBytes "encrypted" = strBytes "iv" then some v1 else none) = some v2
    rw [if_pos rfl]

lemma jsonWrap_mem (e iv : List Nat)
    (he : ∀ c ∈ e, c < 256) (hiv : ∀ c ∈ iv, c < 256) :
    ∀ c ∈ jsonWrap e iv, c < 256 := by
  intro c hc
  simp only [jsonWrap, List.mem_append] at hc
  have hfix1 : ∀ c ∈ strBytes "\x7b\"encrypted\":\"", c < 256 := by decide
  have hfix2 : ∀ c ∈ strBytes "\",\"iv\":\"", c < 256 := by decide
  have hfix3 : ∀ c ∈ strBytes "\"\x7d", c < 256 := by decide
  rcases hc with ((((hc | hc) | hc) | hc) | hc)
  · exact hfix1 c hc
  · exact he c hc
  · exact hfix2 c hc
  · exact hiv c hc
  · exact hfix3 c hc

lemma b64Encode_ne_nil : ∀ bs : List Nat, bs ≠ [] → b64Encode bs ≠ [] := by
  intro bs h
  match bs with
  | [] => exact absurd rfl h
  | [b1] => simp [b64Encode]
  | [b1, b2] => simp [b64Encode]
  | b1 :: b2 :: b3 :: rest => simp [b64Encode]

lemma jsonWrap_ne_nil (e iv : List Nat) : jsonWrap e iv ≠ [] := by
  simp [jsonWrap, strBytes]

end PII

namespace PII

/-- C4: for every non-empty plaintext (as UTF-8 bytes), decrypting the
encryption returns the plaintext, and two encryptions of the same
plaintext under distinct randomly drawn IVs produce distinct tokens (the
token embeds the hex IV, so distinct IVs force distinct tokens whatever
the keystreams do). -/
theorem C4_roundtrip_and_iv_distinct
    (ks1 ks2 : Nat → Nat) (iv1 iv2 P : List Nat)
    (hP : P ≠ []) (hPb : ∀ b ∈ P, b < 256)
    (hiv1len : iv1.length = 16) (hiv1b : ∀ b ∈ iv1, b < 256)
    (hiv2b : ∀ b ∈ iv2, b < 256) (hne : iv1 ≠ iv2) :
    decryptPII ks1 (encryptPII ks1 iv1 P) = P ∧
    encryptPII ks1 iv1 P ≠ encryptPII ks2 iv2 P := by
  have hctr1 : ∀ c ∈ ctrXor ks1 P, c < 256 :=
    fun c hc => ctrXorFrom_mem ks1 P 0 hPb c hc
  have hctr2 : ∀ c ∈ ctrXor ks2 P, c < 256 :=
    fun c hc => ctrXorFrom_mem ks2 P 0 hPb c hc
  have hE1mem := hexEnc_mem (ctrXor ks1 P) hctr1
  have hH1mem := hexEnc_mem iv1 hiv1b
  have hE2mem := hexEnc_mem (ctrXor ks2 P) hctr2
  have hH2mem := hexEnc_mem iv2 hiv2b
  have henc1 : encryptPII ks1 iv1 P =
      b64Encode (jsonWrap (hexEnc (ctrXor ks1 P)) (hexEnc iv1)) := by
    simp [encryptPII, hP]
  have henc2 : encryptPII ks2 iv2 P =
      b64Encode (jsonWrap (hexEnc (ctrXor ks2 P)) (hexEnc iv2)) := by
    simp [encryptPII, hP]
  have hdec1 : b64Decode (b64Encode (jsonWrap (hexEnc (ctrXor ks1 P)) (hexEnc iv1))) =
      jsonWrap (hexEnc (ctrXor ks1 P)) (hexEnc iv1) :=
    b64Decode_b64Encode _ (jsonWrap_mem _ _ (fun c hc => (hE1mem c hc).1)
      (fun c hc => (hH1mem c hc).1))
  have hdec2 : b64Decode (b64Encode (jsonWrap (hexEnc (ctrXor ks2 P)) (hexEnc iv2))) =
      jsonWrap (hexEnc (ctrXor ks2 P)) (hexEnc iv2) :=
    b64Decode_b64Encode _ (jsonWrap_mem _ _ (fun c hc => (hE2mem c hc).1)
      (fun c hc => (hH2mem c hc).1))
  have hparse1 : jsonParseText (jsonWrap (hexEnc (ctrXor ks1 P)) (hexEnc iv1)) =
      some (.jobj [(strBytes "encrypted", .jstr (hexEnc (ctrXor ks1 P))),
        (strBytes "iv", .jstr (hexEnc iv1))]) :=
    jsonParseText_jsonWrap _ _ (fun c hc => (hE1mem c hc).2) (fun c hc => (hH1mem c hc).2)
  have hparse2 : jsonParseText (jsonWrap (hexEnc (ctrXor ks2 P)) (hexEnc iv2)) =
      some (.jobj [(strBytes "encrypted", .jstr (hexEnc (ctrXor ks2 P))),
        (strBytes "iv", .jstr (hexEnc iv2))]) :=
    jsonParseText_jsonWrap _ _ (fun c hc => (hE2mem c hc).2) (fun c hc => (hH2mem c hc).2)
  constructor
  · rw [henc1]
    have hnil : b64Encode (jsonWrap (hexEnc (ctrXor ks1 P)) (hexEnc iv1)) ≠ [] :=
      b64Encode_ne_nil _ (jsonWrap_ne_nil _ _)
    simp only [decryptPII, if_neg hnil, hdec1, hparse1,
      (jGetField_pair (JVal.jstr (hexEnc (ctrXor ks1 P))) (JVal.jstr (hexEnc iv1))).1,
      (jGetField_pair (JVal.jstr (hexEnc (ctrXor ks1 P))) (JVal.jstr (hexEnc iv1))).2]
    rw [hexDec_hexEnc iv1 hiv1b, if_pos hiv1len]
    show ctrXor ks1 (hexDec (hexEnc (ctrXor ks1 P))) = P
    rw [hexDec_hexEnc _ hctr1]
    exact ctrXorFrom_involutive ks1 P 0
  · intro heq
    rw [henc1, henc2] at heq
    have h1 := congrArg b64Decode heq
    rw [hdec1, hdec2] at h1
    have h2 := congrArg jsonParseText h1
    rw [hparse1, hparse2] at h2
    simp only [Option.some.injEq, JVal.jobj.injEq, List.cons.injEq, Prod.mk.injEq,
      JVal.jstr.injEq, eq_self_iff_true, true_and, and_true] at h2
    have h3 := congrArg hexDec h2.2
    rw [hexDec_hexEnc iv1 hiv1b, hexDec_hexEnc iv2 hiv2b] at h3
    exact hne h3

/-- Witness for C4 at the one-byte plaintext `a` with two concrete IVs. -/
theorem C4_witness :
    decryptPII (fun i => i) (encryptPII (fun i => i) (List.replicate 16 0) [97]) = [97] ∧
    encryptPII (fun i => i) (List.replicate 16 0) [97] ≠
      encryptPII (fun i => i) (List.replicate 16 1) [97] :=
  C4_roundtrip_and_iv_distinct (fun i => i) (fun i => i)
    (List.replicate 16 0) (List.replicate 16 1) [97]
    (by decide) (by decide) (by decide) (by decide) (by decide) (by decide)

/-- C10: every `encryptPII` output on a non-empty plaintext is recognized
by `isEncrypted`; the empty plaintext passes through unencrypted and
`isEncrypted` reports false on it. -/
theorem C10_isEncrypted_of_encryptPII (ks : Nat → Nat) (iv P : List Nat)
    (hP : P ≠ []) (hPb : ∀ b ∈ P, b < 256) (hivb : ∀ b ∈ iv, b < 256) :
    isEncrypted (encryptPII ks iv P) = true ∧
    encryptPII ks iv [] = [] ∧ isEncrypted [] = false := by
  refine ⟨?_, rfl, rfl⟩
  have hctr : ∀ c ∈ ctrXor ks P, c < 256 :=
    fun c hc => ctrXorFrom_mem ks P 0 hPb c hc
  have hEmem := hexEnc_mem (ctrXor ks P) hctr
  have hHmem := hexEnc_mem iv hivb
  have henc : encryptPII ks iv P =
      b64Encode (jsonWrap (hexEnc (ctrXor ks P)) (hexEnc iv)) := by
    simp [encryptPII, hP]
  have hdec : b64Decode (b64Encode (jsonWrap (hexEnc (ctrXor ks P)) (hexEnc iv))) =
      jsonWrap (hexEnc (ctrXor ks P)) (hexEnc iv) :=
    b64Decode_b64Encode _ (jsonWrap_mem _ _ (fun c hc => (hEmem c hc).1)
      (fun c hc => (hHmem c hc).1))
  have hparse : jsonParseText (jsonWrap (hexEnc (ctrXor ks P)) (hexEnc iv)) =
      some (.jobj [(strBytes "encrypted", .jstr (hexEnc (ctrXor ks P))),
        (strBytes "iv", .jstr (hexEnc iv))]) :=
    jsonParseText_jsonWrap _ _ (fun c hc => (hEmem c hc).2) (fun c hc => (hHmem c hc).2)
  rw [henc]
  have hnil : b64Encode (jsonWrap (hexEnc (ctrXor ks P)) (hexEnc iv)) ≠ [] :=
    b64Encode_ne_nil _ (jsonWrap_ne_nil _ _)
  simp only [isEncrypted, if_neg hnil, hdec, hparse,
    (jGetField_pair (JVal.jstr (hexEnc (ctrXor ks P))) (JVal.jstr (hexEnc iv))).1,
    (jGetField_pair (JVal.jstr (hexEnc (ctrXor ks P))) (JVal.jstr (hexEnc iv))).2,
    Option.isSome_some, Bool.and_self]

/-- Witness for C10 at the one-byte plaintext `a`. -/
theorem C10_witness :
    isEncrypted (encryptPII (fun i => i) (List.replicate 16 0) [97]) = true ∧
    encryptPII (fun i => i) (List.replicate 16 0) [] = [] ∧
    isEncrypted [] = false :=
  C10_isEncrypted_of_encryptPII (fun i => i) (List.replicate 16 0) [97]
    (by decide) (by decide) (by decide)

end PII

namespace Creds

lemma lookup_insert_self : ∀ (s : MgrState) (n : String) (es : EncryptedSecret),
    lookupSecret (insertSecret s n es) n = some es := by
  intro s
  induction s with
  | nil => intro n es; simp [insertSecret, lookupSecret]
  | cons kv rest ih =>
    intro n es
    obtain ⟨k, v⟩ := kv
    by_cases hk : k = n
    · simp [insertSecret, lookupSecret, hk]
    · simp only [insertSecret, if_neg hk, lookupSecret, ih]

lemma lookup_insert_ne : ∀ (s : MgrState) (m n : String) (es : EncryptedSecret),
    m ≠ n → lookupSecret (insertSecret s m es) n = lookupSecret s n := by
  intro s
  induction s with
  | nil =>
    intro m n es h
    simp [insertSecret, lookupSecret, h]
  | cons kv rest ih =>
    intro m n es h
    obtain ⟨k, v⟩ := kv
    by_cases hk : k = m
    · subst hk
      simp only [insertSecret, if_pos rfl, lookupSecret]
      rw [if_neg h, if_neg h]
    · simp only [insertSecret, if_neg hk, lookupSecret, ih _ _ _ h]

lemma inactive_persists (enc : String → String × String × String) (n : String) :
    ∀ (ops : List MgrOp) (s : MgrState),
      (∀ op ∈ ops, isStoreOf n op = false) →
      (∃ es, lookupSecret s n = some es ∧ es.metadata.isActive = false) →
      ∃ es, lookupSecret (applyOps enc s ops) n = some es ∧
        es.metadata.isActive = false := by
  intro ops
  induction ops with
  | nil => intro s _ h; exact h
  | cons op rest ih =>
    intro s hops hinv
    obtain ⟨es, hlook, hinact⟩ := hinv
    refine ih (applyOp enc s op) (fun o ho => hops o (by simp [ho])) ?_
    have hop := hops op (by simp)
    cases op with
    | store m value stype now =>
      have hm : m ≠ n := by
        simp only [isStoreOf, beq_eq_false_iff_ne] at hop
        exact hop
      exact ⟨es, by simp only [applyOp, storeSecret, lookup_insert_ne _ _ _ _ hm, hlook], hinact⟩
    | rotate m newValue now =>
      by_cases hm : m = n
      · subst hm
        refine ⟨⟨(enc newValue).1, (enc newValue).2.1, (enc newValue).2.2,
          { es.metadata with
            lastRotatedAt := now,
            rotationCount := es.metadata.rotationCount + 1,
            version := es.metadata.version + 1 }⟩, ?_, hinact⟩
        simp only [applyOp, rotateSecret, hlook, lookup_insert_self]
      · cases hlm : lookupSecret s m with
        | none => exact ⟨es, by simp only [applyOp, rotateSecret, hlm, hlook], hinact⟩
        | some esm =>
          exact ⟨es, by simp only [applyOp, rotateSecret, hlm,
            lookup_insert_ne _ _ _ _ hm, hlook], hinact⟩
    | revoke m =>
      by_cases hm : m = n
      · subst hm
        refine ⟨{ es with metadata := { es.metadata with isActive := false } }, ?_, rfl⟩
        simp only [applyOp, revokeSecret, hlook, lookup_insert_self]
      · cases hlm : lookupSecret s m with
        | none => exact ⟨es, by simp only [applyOp, revokeSecret, hlm, hlook], hinact⟩
        | some esm =>
          exact ⟨es, by simp only [applyOp, revokeSecret, hlm,
            lookup_insert_ne _ _ _ _ hm, hlook], hinact⟩

end Creds

namespace Creds

/-- C6: for a stored active secret, a successful rotation makes `get`
return the freshly generated value (different from the pre-rotation value
whenever the generator draws a fresh one), bumps the version by exactly 1
and the rotation count by 1; after revocation `get` returns `null`, and
keeps returning `null` across any later sequence of manager operations
that does not re-store the name (`hcipher` states that decryption inverts
encryption, as AES-256-GCM under the fixed master key does). -/
theorem C6_rotate_and_revoke (enc : String → String × String × String)
    (dec : String → String → String → Option String)
    (hcipher : ∀ v, dec (enc v).1 (enc v).2.1 (enc v).2.2 = some v)
    (s : MgrState) (n : String) (es : EncryptedSecret) (oldV newV : String) (now : Nat)
    (hlook : lookupSecret s n = some es)
    (hact : es.metadata.isActive = true)
    (hold : getSecret dec s n = some oldV)
    (hnew : newV ≠ oldV) :
    (rotateSecret enc newV s n now).1 = true ∧
    getSecret dec (rotateSecret enc newV s n now).2 n = some newV ∧
    getSecret dec (rotateSecret enc newV s n now).2 n ≠ getSecret dec s n ∧
    (∃ es', lookupSecret (rotateSecret enc newV s n now).2 n = some es' ∧
      es'.metadata.version = es.metadata.version + 1 ∧
      es'.metadata.rotationCount = es.metadata.rotationCount + 1) ∧
    (revokeSecret s n).1 = true ∧
    getSecret dec (revokeSecret s n).2 n = none ∧
    (∀ ops : List MgrOp, (∀ op ∈ ops, isStoreOf n op = false) →
      getSecret dec (applyOps enc (revokeSecret s n).2 ops) n = none) := by
  have hrs : rotateSecret enc newV s n now = (true, insertSecret s n
      ⟨(enc newV).1, (enc newV).2.1, (enc newV).2.2,
       { es.metadata with
         lastRotatedAt := now,
         rotationCount := es.metadata.rotationCount + 1,
         version := es.metadata.version + 1 }⟩) := by
    simp only [rotateSecret, hlook]
  have hrv : revokeSecret s n = (true, insertSecret s n
      { es with metadata := { es.metadata with isActive := false } }) := by
    simp only [revokeSecret, hlook]
  have hget2 : getSecret dec (rotateSecret enc newV s n now).2 n = some newV := by
    rw [hrs]
    simp only [getSecret, lookup_insert_self, hact, if_true]
    exact hcipher newV
  have hrevget : getSecret dec (revokeSecret s n).2 n = none := by
    rw [hrv]
    simp [getSecret, lookup_insert_self]
  refine ⟨by rw [hrs], hget2, ?_, ?_, by rw [hrv], hrevget, ?_⟩
  · rw [hget2, hold]
    simp [hnew]
  · refine ⟨_, by rw [hrs]; exact lookup_insert_self s n _, rfl, rfl⟩
  · intro ops hops
    have hstart : ∃ es', lookupSecret (revokeSecret s n).2 n = some es' ∧
        es'.metadata.isActive = false := by
      refine ⟨_, by rw [hrv]; exact lookup_insert_self s n _, rfl⟩
    obtain ⟨es', hl, hi⟩ := inactive_persists enc n ops (revokeSecret s n).2 hops hstart
    simp [getSecret, hl, hi]

/-- Witness for C6 on a one-secret store with an identity cipher model. -/
theorem C6_witness :
    (rotateSecret (fun v => (v, "", "")) "new"
      [("k", ⟨"old", "", "", ⟨SecretType.jwt, 0, 0, 0, true, 1⟩⟩)] "k" 7).1 = true ∧
    getSecret (fun c _ _ => some c)
      (rotateSecret (fun v => (v, "", "")) "new"
        [("k", ⟨"old", "", "", ⟨SecretType.jwt, 0, 0, 0, true, 1⟩⟩)] "k" 7).2 "k" =
      some "new" ∧
    getSecret (fun c _ _ => some c)
      (revokeSecret [("k", ⟨"old", "", "", ⟨SecretType.jwt, 0, 0, 0, true, 1⟩⟩)] "k").2 "k" =
      none ∧
    getSecret (fun c _ _ => some c)
      (applyOps (fun v => (v, "", ""))
        (revokeSecret [("k", ⟨"old", "", "", ⟨SecretType.jwt, 0, 0, 0, true, 1⟩⟩)] "k").2
        [MgrOp.rotate "k" "z" 9]) "k" = none := by
  have h := C6_rotate_and_revoke (fun v => (v, "", "")) (fun c _ _ => some c)
    (fun v => rfl)
    [("k", ⟨"old", "", "", ⟨SecretType.jwt, 0, 0, 0, true, 1⟩⟩)] "k"
    ⟨"old", "", "", ⟨SecretType.jwt, 0, 0, 0, true, 1⟩⟩ "old" "new" 7
    (by decide) (by decide) (by decide) (by decide)
  exact ⟨h.1, h.2.1, h.2.2.2.2.2.1,
    h.2.2.2.2.2.2 [MgrOp.rotate "k" "z" 9] (by decide)⟩

end Creds

namespace PathGuard

/-- C8: `createSecurePath` guards containment with a plain string
`startsWith`, so a path that merely shares the base as a string prefix
escapes: with base `/base`, the user path `/basement/secret` passes
`sanitizeFilePath`, resolves to `/basement/secret`, survives the
`startsWith("/base")` test and is returned although it is not a strict
descendant of `/base` — contradicting the code's own containment comment
and the spec. The traversal input `../../etc/passwd` is rejected for every
base, as claimed. -/
theorem C8_prefix_escape_and_traversal_null :
    createSecurePath "/base".data "/basement/secret".data =
      some "/basement/secret".data ∧
    "/base".data.isPrefixOf "/basement/secret".data = true ∧
    "/base/".data.isPrefixOf "/basement/secret".data = false ∧
    "/basement/secret".data ≠ "/base".data ∧
    (∀ basePath : List Char, createSecurePath basePath "../../etc/passwd".data = none) := by
  refine ⟨by decide, by decide, by decide, by decide, ?_⟩
  intro basePath
  have hsan : sanitizeFilePath "../../etc/passwd".data =
      .invalid .dangerousPattern .high := by decide
  simp only [createSecurePath, hsan]

end PathGuard

namespace CORS

/-- C7 counterexample: `test` is a valid non-production `NODE_ENV`
(`env.ts` admits `development | production | test`), yet an absent origin
is refused there — the claim's "allowed in every non-production
environment" fails. -/
theorem C7_counterexample :
    isOriginAllowed (fun _ => none) "http://localhost:5173" none "test" = false ∧
    "test" ≠ "production" ∧ "test" ≠ "development" := by
  refine ⟨rfl, by decide, by decide⟩

/-- C7 amended: a request with an absent origin is allowed if and only if
the environment is exactly `development` — so it is refused in production
and in every other environment (such as `test`), whatever the URL parser
and configured frontend URL. -/
theorem C7_amended (parseURL : String → Option URLInfo) (frontendUrl env : String) :
    isOriginAllowed parseURL frontendUrl none env = (env == "development") := rfl

end CORS

namespace ErrHandler

/-- C9 counterexample: in production the unhandled-rejection handler
classifies with HIGH, not CRITICAL, severity and never terminates the
process, while the uncaught-exception handler does terminate — the claim's
"critical severity and production termination for both" fails for
rejections. -/
theorem C9_counterexample :
    (unhandledRejectionHandler "production").err.severity = ErrorSeverity.high ∧
    ErrorSeverity.high ≠ ErrorSeverity.critical ∧
    (unhandledRejectionHandler "production").exitsProcess = false ∧
    (uncaughtExceptionHandler "production").exitsProcess = true := by
  refine ⟨rfl, by decide, rfl, rfl⟩

/-- C9 amended: both global handlers classify as internal; the
uncaught-exception handler assigns critical severity and terminates the
process exactly in production, while the unhandled-rejection handler
assigns high severity and never terminates, in any environment. -/
theorem C9_amended (env : String) :
    (uncaughtExceptionHandler env).err.etype = ErrorType.internal ∧
    (uncaughtExceptionHandler env).err.severity = ErrorSeverity.critical ∧
    (uncaughtExceptionHandler env).exitsProcess = (env == "production") ∧
    (unhandledRejectionHandler env).err.etype = ErrorType.internal ∧
    (unhandledRejectionHandler env).err.severity = ErrorSeverity.high ∧
    (unhandledRejectionHandler env).exitsProcess = false :=
  ⟨rfl, rfl, rfl, rfl, rfl, rfl⟩

end ErrHandler
